import Mathlib

/-!
Verification development for the jplag-javascript-parser token converter
(src/index.js).  The program parses a JavaScript file with acorn (strict
mode, falling back to acorn-loose), walks the resulting ESTree with
ast-types, emits abstract structural tokens, and finally sorts the token
list by (line, column).

The shallow embedding below translates the source file into Lean:
  * the ESTree node shapes that the acorn configuration
    (ecmaVersion 10, module source type) can produce and that the visitor
    inspects are the mutual inductive Node / NodeKind / NodeList / NodeOpt
    (GeneratorExpression, ComprehensionExpression, Decorator and
    ImportExpression rules of the visitor are dead code under this parser
    configuration and are not part of the node language);
  * the TOKENS object, TOKENS_REVERSE and the AMOUNT computation are
    embedded verbatim;
  * emit / emitEnd, including their assert statements, become functions
    into Except String; a failed assert is an Except.error, which aborts
    the whole conversion exactly as a thrown assertion does in the source;
  * the ast-types traversal together with the visitor table becomes the
    mutual function visitNode / visitList / visitOpt; token lists are
    returned in emission order, matching the pushes into the res array;
  * the final Array.prototype.sort with the (line, column) comparator is a
    stable sort by the ECMAScript specification; it is embedded as
    List.insertionSort with the corresponding total preorder, which is
    sorted and stable, hence produces the same list as any stable sort.
-/

/-- Source position: acorn line numbers are 1-based, columns 0-based. -/
structure Pos where
  line : Nat
  column : Nat
deriving DecidableEq, Repr

/-- A node location; field stop embeds the loc.end field of the source
(end is a Lean keyword). -/
structure SrcLoc where
  start : Pos
  stop : Pos
deriving DecidableEq, Repr

/-- The token id part of an emitted token: key is the kind name, value the
numeric kind id, exactly as built by emit and emitEnd. -/
structure TokenId where
  key : String
  value : Nat
deriving DecidableEq, Repr

/-- One output token, mirroring the object pushed onto res:
a token id, a position, and a length.  Lengths are JavaScript numbers that
are asserted positive at emission; they are embedded as Int. -/
structure Token where
  token : TokenId
  line : Nat
  column : Nat
  length : Int
deriving DecidableEq, Repr

namespace TOKENS

def FOR_BEGIN : Nat := 2
def FOR_END : Nat := 3
def FUNCTION_BEGIN : Nat := 4
def FUNCTION_END : Nat := 5
def BREAK : Nat := 6
def APPLY : Nat := 7
def IF_BEGIN : Nat := 8
def IF_END : Nat := 9
def ELSE : Nat := 10
def CONTINUE : Nat := 11
def CLASS_BEGIN : Nat := 12
def CLASS_END : Nat := 13
def IN_CLASS_BEGIN : Nat := 14
def IN_CLASS_END : Nat := 15
def WITH_BEGIN : Nat := 16
def WITH_END : Nat := 17
def SWITCH_BEGIN : Nat := 18
def SWITCH_END : Nat := 19
def CASE : Nat := 20
def RETURN : Nat := 21
def THROW : Nat := 22
def TRY : Nat := 23
def CATCH_BEGIN : Nat := 24
def CATCH_END : Nat := 25
def WHILE_BEGIN : Nat := 26
def WHILE_END : Nat := 27
def DO_WHILE_BEGIN : Nat := 28
def DO_WHILE_END : Nat := 29
def ASSIGN : Nat := 30
def ARRAY_BEGIN : Nat := 31
def ARRAY_END : Nat := 32
def OBJECT_BEGIN : Nat := 33
def OBJECT_END : Nat := 34
def TERNARY : Nat := 35
def YIELD : Nat := 36
def GEN_EXPR_BEGIN : Nat := 37
def GEN_EXPR_END : Nat := 38
def ARRAY_COMP_BEGIN : Nat := 39
def ARRAY_COMP_END : Nat := 40
def IMPORT : Nat := 41
def AWAIT : Nat := 42
def DECORATOR : Nat := 43
def EXPORT : Nat := 44

end TOKENS

/-- The TOKENS object of the source as an association list, in the order of
its definition. -/
def tokensTable : List (String × Nat) :=
  [ ("FOR_BEGIN", TOKENS.FOR_BEGIN)
  , ("FOR_END", TOKENS.FOR_END)
  , ("FUNCTION_BEGIN", TOKENS.FUNCTION_BEGIN)
  , ("FUNCTION_END", TOKENS.FUNCTION_END)
  , ("BREAK", TOKENS.BREAK)
  , ("APPLY", TOKENS.APPLY)
  , ("IF_BEGIN", TOKENS.IF_BEGIN)
  , ("IF_END", TOKENS.IF_END)
  , ("ELSE", TOKENS.ELSE)
  , ("CONTINUE", TOKENS.CONTINUE)
  , ("CLASS_BEGIN", TOKENS.CLASS_BEGIN)
  , ("CLASS_END", TOKENS.CLASS_END)
  , ("IN_CLASS_BEGIN", TOKENS.IN_CLASS_BEGIN)
  , ("IN_CLASS_END", TOKENS.IN_CLASS_END)
  , ("WITH_BEGIN", TOKENS.WITH_BEGIN)
  , ("WITH_END", TOKENS.WITH_END)
  , ("SWITCH_BEGIN", TOKENS.SWITCH_BEGIN)
  , ("SWITCH_END", TOKENS.SWITCH_END)
  , ("CASE", TOKENS.CASE)
  , ("RETURN", TOKENS.RETURN)
  , ("THROW", TOKENS.THROW)
  , ("TRY", TOKENS.TRY)
  , ("CATCH_BEGIN", TOKENS.CATCH_BEGIN)
  , ("CATCH_END", TOKENS.CATCH_END)
  , ("WHILE_BEGIN", TOKENS.WHILE_BEGIN)
  , ("WHILE_END", TOKENS.WHILE_END)
  , ("DO_WHILE_BEGIN", TOKENS.DO_WHILE_BEGIN)
  , ("DO_WHILE_END", TOKENS.DO_WHILE_END)
  , ("ASSIGN", TOKENS.ASSIGN)
  , ("ARRAY_BEGIN", TOKENS.ARRAY_BEGIN)
  , ("ARRAY_END", TOKENS.ARRAY_END)
  , ("OBJECT_BEGIN", TOKENS.OBJECT_BEGIN)
  , ("OBJECT_END", TOKENS.OBJECT_END)
  , ("TERNARY", TOKENS.TERNARY)
  , ("YIELD", TOKENS.YIELD)
  , ("GEN_EXPR_BEGIN", TOKENS.GEN_EXPR_BEGIN)
  , ("GEN_EXPR_END", TOKENS.GEN_EXPR_END)
  , ("ARRAY_COMP_BEGIN", TOKENS.ARRAY_COMP_BEGIN)
  , ("ARRAY_COMP_END", TOKENS.ARRAY_COMP_END)
  , ("IMPORT", TOKENS.IMPORT)
  , ("AWAIT", TOKENS.AWAIT)
  , ("DECORATOR", TOKENS.DECORATOR)
  , ("EXPORT", TOKENS.EXPORT)
  ]

/-- TOKENS_REVERSE as a function: the name of a kind id.  A value absent
from the table yields the string undefined, as JavaScript property access
would. -/
def TOKENS_REVERSE (v : Nat) : String :=
  (((tokensTable.find? (fun p => p.2 == v)).map Prod.fst).getD "undefined")

/-- The AMOUNT command output: Object.keys(TOKENS).length + 1. -/
def AMOUNT : Nat := tokensTable.length + 1

/-- The MAPPING command output is TOKENS_REVERSE serialized; its key count
is the number of distinct ids, i.e. the table length (the source asserts
this equality at load time). -/
def mappingKeyCount : Nat := (tokensTable.map Prod.snd).dedup.length

/-- JavaScript String.prototype.endsWith, kernel-computable. -/
def strEndsWith (s p : String) : Bool :=
  List.isPrefixOf p.toList.reverse s.toList.reverse

mutual

/-- An ESTree node: a location, a character range, and a kind with the
children the visitor inspects.  JavaScript nodes are untyped records, so
no arity or typing constraints beyond the field structure are imposed. -/
inductive Node where
  | mk (loc : SrcLoc) (range : Nat × Nat) (kind : NodeKind)

/-- Node kinds and their children, in the field order that ast-types uses
for default traversal. -/
inductive NodeKind where
  | program (body : NodeList)
  | expressionStatement (expression : Node)
  | blockStatement (body : NodeList)
  | identifier (name : String)
  | literal
  | binaryExpression (operator : String) (left : Node) (right : Node)
  | memberExpression (object : Node) (property : Node)
  | property (key : Node) (value : Node)
  | methodDefinition (key : Node) (value : Node)
  | variableDeclaration (declarations : NodeList)
  | variableDeclarator (id : Node) (init : NodeOpt)
  | forStatement (init : NodeOpt) (test : NodeOpt) (update : NodeOpt) (body : Node)
  | forOfStatement (left : Node) (right : Node) (body : Node)
  | forInStatement (left : Node) (right : Node) (body : Node)
  | functionDeclaration (id : NodeOpt) (params : NodeList) (body : Node)
  | functionExpression (id : NodeOpt) (params : NodeList) (body : Node)
  | arrowFunctionExpression (params : NodeList) (body : Node)
  | breakStatement
  | continueStatement
  | callExpression (callee : Node) (arguments : NodeList)
  | ifStatement (test : Node) (consequent : Node) (alternate : NodeOpt)
  | classDeclaration (id : NodeOpt) (body : NodeList)
  | classExpression (id : NodeOpt) (body : NodeList)
  | withStatement (object : Node) (body : Node)
  | switchStatement (discriminant : Node) (cases : NodeList)
  | switchCase (test : NodeOpt) (consequent : NodeList)
  | returnStatement (argument : NodeOpt)
  | throwStatement (argument : Node)
  | tryStatement (block : Node) (handler : NodeOpt) (finalizer : NodeOpt)
  | catchClause (param : NodeOpt) (body : Node)
  | whileStatement (test : Node) (body : Node)
  | doWhileStatement (body : Node) (test : Node)
  | arrayExpression (elements : NodeList)
  | objectExpression (properties : NodeList)
  | assignmentExpression (operator : String) (left : Node) (right : Node)
  | updateExpression (operator : String) (argument : Node)
  | conditionalExpression (test : Node) (consequent : Node) (alternate : Node)
  | yieldExpression (argument : NodeOpt)
  | awaitExpression (argument : Node)
  | importDeclaration
  | exportNamedDeclaration (declaration : NodeOpt)
  | exportDefaultDeclaration (declaration : Node)
  | exportAllDeclaration

/-- A list-valued child field. -/
inductive NodeList where
  | nil
  | cons (head : Node) (tail : NodeList)

/-- A nullable child field (JavaScript null becomes NodeOpt.none). -/
inductive NodeOpt where
  | none
  | some (node : Node)

end

/-- The loc field of a node. -/
def Node.loc : Node → SrcLoc
  | Node.mk loc _ _ => loc

/-- The range field of a node. -/
def Node.rangeOf : Node → Nat × Nat
  | Node.mk _ range _ => range

/-- getLength(node): node.range[1] - node.range[0], a JavaScript number,
embedded as Int. -/
def getLength (n : Node) : Int :=
  (n.rangeOf.2 : Int) - (n.rangeOf.1 : Int)

/-- The token record that emit pushes: kind name and id, the start
position of the anchor node, and the given length. -/
def mkTok (tok : Nat) (n : Node) (len : Int) : Token :=
  { token := { key := TOKENS_REVERSE tok, value := tok }
  , line := n.loc.start.line
  , column := n.loc.start.column
  , length := len }

/-- emit(tok, node, length): asserts tok and node are not null (guaranteed
here by typing) and that length is strictly positive; a failed assert
throws, which is the Except.error case.  On success the token record is
pushed. -/
def emit (tok : Nat) (n : Node) (len : Int) : Except String Token :=
  if 0 < len then Except.ok (mkTok tok n len)
  else Except.error "AssertionError: length greater than 0 failed"

/-- The token record that emitEnd pushes: the end line of the anchor, the
end column shifted left by one and clamped at zero, and length 1. -/
def mkEndTok (tok : Nat) (n : Node) : Token :=
  { token := { key := TOKENS_REVERSE tok, value := tok }
  , line := n.loc.stop.line
  , column := Nat.max (n.loc.stop.column - 1) 0
  , length := 1 }

/-- emitEnd(tok, node): asserts tok and node are not null (typing) and
that the kind name is END-suffixed; the emitted length is the constant 1.
The source function declares only two parameters; visitForStatement calls
it with a third argument (an empty-string length, i.e. 0), which
JavaScript silently discards.  That discarded extra argument is the
lengthArg parameter here: it is never read. -/
def emitEnd (tok : Nat) (n : Node) (lengthArg : Option Int) : Except String Token :=
  if strEndsWith (TOKENS_REVERSE tok) "END" then Except.ok (mkEndTok tok n)
  else Except.error "AssertionError: tokKey END suffix check failed"

/-- The anchor node and length for visitCallExpression: a member-access
callee anchors at the accessed property with the property length,
otherwise the call expression itself is the anchor with the callee
length. -/
def applyAnchor (n callee : Node) : Node × Int :=
  match callee with
  | Node.mk _ _ (NodeKind.memberExpression _ property) => (property, getLength property)
  | c => (n, getLength c)

mutual

/-- The ast-types traversal with the visitor table of ASTToTokens.  For a
kind with a registered rule the rule body runs (emissions and explicit
child visits in rule order, followed by the default child traversal when
the rule neither traversed nor returned true); for any other kind the
default traversal recurses into all children in field order.  The result
is the token list in emission order, i.e. the res array. -/
def visitNode : Node → Except String (List Token)
  | Node.mk _ _ (NodeKind.program body) => visitList body
  | Node.mk _ _ (NodeKind.expressionStatement expression) => visitNode expression
  | Node.mk _ _ (NodeKind.blockStatement body) => visitList body
  | Node.mk _ _ (NodeKind.identifier _) => Except.ok []
  | Node.mk _ _ NodeKind.literal => Except.ok []
  | Node.mk _ _ (NodeKind.binaryExpression _ left right) => do
      let a ← visitNode left
      let b ← visitNode right
      pure (a ++ b)
  | Node.mk _ _ (NodeKind.memberExpression object property) => do
      let a ← visitNode object
      let b ← visitNode property
      pure (a ++ b)
  | Node.mk _ _ (NodeKind.property key value) => do
      let a ← visitNode key
      let b ← visitNode value
      pure (a ++ b)
  | Node.mk _ _ (NodeKind.methodDefinition key value) => do
      let a ← visitNode key
      let b ← visitNode value
      pure (a ++ b)
  | Node.mk _ _ (NodeKind.variableDeclaration declarations) => visitList declarations
  | n@(Node.mk _ _ (NodeKind.variableDeclarator id NodeOpt.none)) =>
      visitNode id
  | n@(Node.mk _ _ (NodeKind.variableDeclarator id (NodeOpt.some init))) => do
      let t ← emit TOKENS.ASSIGN n (getLength id)
      let a ← visitNode id
      let b ← visitNode init
      pure (t :: (a ++ b))
  | n@(Node.mk _ _ (NodeKind.forStatement init test update body)) => do
      let b0 ← emit TOKENS.FOR_BEGIN n ("for".length : Int)
      let c1 ← visitOpt init
      let c2 ← visitOpt test
      let c3 ← visitOpt update
      let c4 ← visitNode body
      let e ← emitEnd TOKENS.FOR_END n (Option.some ("".length : Int))
      pure (b0 :: (c1 ++ c2 ++ c3 ++ c4 ++ [e]))
  | n@(Node.mk _ _ (NodeKind.forOfStatement left right body)) => do
      let b0 ← emit TOKENS.FOR_BEGIN n ("for".length : Int)
      let c1 ← visitNode left
      let t ← emit TOKENS.ASSIGN left ("=".length : Int)
      let c2 ← visitNode right
      let c3 ← visitNode body
      let e ← emitEnd TOKENS.FOR_END n Option.none
      pure (b0 :: (c1 ++ (t :: (c2 ++ c3 ++ [e]))))
  | n@(Node.mk _ _ (NodeKind.forInStatement left right body)) => do
      let b0 ← emit TOKENS.FOR_BEGIN n ("for".length : Int)
      let c1 ← visitNode left
      let t ← emit TOKENS.ASSIGN left ("=".length : Int)
      let c2 ← visitNode right
      let c3 ← visitNode body
      let e ← emitEnd TOKENS.FOR_END n Option.none
      pure (b0 :: (c1 ++ (t :: (c2 ++ c3 ++ [e]))))
  | n@(Node.mk _ _ (NodeKind.functionDeclaration id params body)) => do
      let b0 ← emit TOKENS.FUNCTION_BEGIN n ("function".length : Int)
      let c1 ← visitOpt id
      let c2 ← visitList params
      let c3 ← visitNode body
      let e ← emitEnd TOKENS.FUNCTION_END n Option.none
      pure (b0 :: (c1 ++ c2 ++ c3 ++ [e]))
  | n@(Node.mk _ _ (NodeKind.functionExpression id params body)) => do
      let b0 ← emit TOKENS.FUNCTION_BEGIN n ("function".length : Int)
      let c1 ← visitOpt id
      let c2 ← visitList params
      let c3 ← visitNode body
      let e ← emitEnd TOKENS.FUNCTION_END n Option.none
      pure (b0 :: (c1 ++ c2 ++ c3 ++ [e]))
  | n@(Node.mk _ _ (NodeKind.arrowFunctionExpression params body)) => do
      let b0 ← emit TOKENS.FUNCTION_BEGIN n ("function".length : Int)
      let c2 ← visitList params
      let c3 ← visitNode body
      let e ← emitEnd TOKENS.FUNCTION_END n Option.none
      pure (b0 :: (c2 ++ c3 ++ [e]))
  | n@(Node.mk _ _ NodeKind.breakStatement) => do
      let t ← emit TOKENS.BREAK n (getLength n)
      pure [t]
  | n@(Node.mk _ _ NodeKind.continueStatement) => do
      let t ← emit TOKENS.CONTINUE n (getLength n)
      pure [t]
  | n@(Node.mk _ _ (NodeKind.callExpression callee arguments)) => do
      let t ← emit TOKENS.APPLY (applyAnchor n callee).1 (applyAnchor n callee).2
      let c1 ← visitNode callee
      let c2 ← visitList arguments
      pure (t :: (c1 ++ c2))
  | n@(Node.mk _ _ (NodeKind.ifStatement test consequent NodeOpt.none)) => do
      let b0 ← emit TOKENS.IF_BEGIN n ("if".length : Int)
      let c1 ← visitNode test
      let c2 ← visitNode consequent
      let e ← emitEnd TOKENS.IF_END n Option.none
      pure (b0 :: (c1 ++ c2 ++ [e]))
  | n@(Node.mk _ _ (NodeKind.ifStatement test consequent (NodeOpt.some alternate))) => do
      let b0 ← emit TOKENS.IF_BEGIN n ("if".length : Int)
      let c1 ← visitNode test
      let c2 ← visitNode consequent
      let t ← emit TOKENS.ELSE alternate 1
      let c3 ← visitNode alternate
      let e ← emitEnd TOKENS.IF_END n Option.none
      pure (b0 :: (c1 ++ c2 ++ (t :: c3) ++ [e]))
  | n@(Node.mk _ _ (NodeKind.classDeclaration id body)) => do
      let b0 ← emit TOKENS.CLASS_BEGIN n ("class".length : Int)
      let c1 ← visitOpt id
      let c2 ← visitList body
      let e ← emitEnd TOKENS.CLASS_END n Option.none
      pure (b0 :: (c1 ++ c2 ++ [e]))
  | n@(Node.mk _ _ (NodeKind.classExpression id body)) => do
      let b0 ← emit TOKENS.IN_CLASS_BEGIN n ("class".length : Int)
      let c1 ← visitOpt id
      let c2 ← visitList body
      let e ← emitEnd TOKENS.IN_CLASS_END n Option.none
      pure (b0 :: (c1 ++ c2 ++ [e]))
  | n@(Node.mk _ _ (NodeKind.withStatement object body)) => do
      let b0 ← emit TOKENS.WITH_BEGIN n ("with".length : Int)
      let c1 ← visitNode object
      let c2 ← visitNode body
      let e ← emitEnd TOKENS.WITH_END n Option.none
      pure (b0 :: (c1 ++ c2 ++ [e]))
  | n@(Node.mk _ _ (NodeKind.switchStatement discriminant cases)) => do
      let b0 ← emit TOKENS.SWITCH_BEGIN n ("switch".length : Int)
      let c1 ← visitNode discriminant
      let c2 ← visitList cases
      let e ← emitEnd TOKENS.SWITCH_END n Option.none
      pure (b0 :: (c1 ++ c2 ++ [e]))
  | n@(Node.mk _ _ (NodeKind.switchCase NodeOpt.none consequent)) => do
      let t ← emit TOKENS.CASE n ("default".length : Int)
      let c2 ← visitList consequent
      pure (t :: c2)
  | n@(Node.mk _ _ (NodeKind.switchCase (NodeOpt.some test) consequent)) => do
      let t ← emit TOKENS.CASE n ("case".length : Int)
      let c1 ← visitNode test
      let c2 ← visitList consequent
      pure (t :: (c1 ++ c2))
  | n@(Node.mk _ _ (NodeKind.returnStatement argument)) => do
      let t ← emit TOKENS.RETURN n ("return".length : Int)
      let c1 ← visitOpt argument
      pure (t :: c1)
  | n@(Node.mk _ _ (NodeKind.throwStatement argument)) => do
      let t ← emit TOKENS.THROW n ("throw".length : Int)
      let c1 ← visitNode argument
      pure (t :: c1)
  | n@(Node.mk _ _ (NodeKind.tryStatement block handler finalizer)) => do
      let t ← emit TOKENS.TRY n ("try".length : Int)
      let c1 ← visitNode block
      let c2 ← visitOpt handler
      let c3 ← visitOpt finalizer
      pure (t :: (c1 ++ c2 ++ c3))
  | n@(Node.mk _ _ (NodeKind.catchClause param body)) => do
      let b0 ← emit TOKENS.CATCH_BEGIN n ("catch".length : Int)
      let c1 ← visitOpt param
      let c2 ← visitNode body
      let e ← emitEnd TOKENS.CATCH_END n Option.none
      pure (b0 :: (c1 ++ c2 ++ [e]))
  | n@(Node.mk _ _ (NodeKind.whileStatement test body)) => do
      let b0 ← emit TOKENS.WHILE_BEGIN n ("while".length : Int)
      let c1 ← visitNode test
      let c2 ← visitNode body
      let e ← emitEnd TOKENS.WHILE_END n Option.none
      pure (b0 :: (c1 ++ c2 ++ [e]))
  | n@(Node.mk _ _ (NodeKind.doWhileStatement body test)) => do
      let b0 ← emit TOKENS.DO_WHILE_BEGIN n ("do".length : Int)
      let c1 ← visitNode body
      let c2 ← visitNode test
      let e ← emitEnd TOKENS.DO_WHILE_END n Option.none
      pure (b0 :: (c1 ++ c2 ++ [e]))
  | n@(Node.mk _ _ (NodeKind.arrayExpression elements)) => do
      let b0 ← emit TOKENS.ARRAY_BEGIN n ("[".length : Int)
      let c1 ← visitList elements
      let e ← emitEnd TOKENS.ARRAY_END n Option.none
      pure (b0 :: (c1 ++ [e]))
  | n@(Node.mk _ _ (NodeKind.objectExpression properties)) => do
      let b0 ← emit TOKENS.OBJECT_BEGIN n 1
      let c1 ← visitList properties
      let e ← emitEnd TOKENS.OBJECT_END n Option.none
      pure (b0 :: (c1 ++ [e]))
  | n@(Node.mk _ _ (NodeKind.assignmentExpression operator left right)) => do
      let c1 ← visitNode left
      let t ← emit TOKENS.ASSIGN n (operator.length : Int)
      let c2 ← visitNode right
      pure (c1 ++ (t :: c2))
  | n@(Node.mk _ _ (NodeKind.updateExpression operator argument)) => do
      let c1 ← visitNode argument
      let t ← emit TOKENS.ASSIGN n (operator.length : Int)
      pure (c1 ++ [t])
  | n@(Node.mk _ _ (NodeKind.conditionalExpression test consequent alternate)) => do
      let t ← emit TOKENS.TERNARY n (getLength test + (" ?".length : Int))
      let c1 ← visitNode test
      let c2 ← visitNode consequent
      let c3 ← visitNode alternate
      pure (t :: (c1 ++ c2 ++ c3))
  | n@(Node.mk _ _ (NodeKind.yieldExpression argument)) => do
      let t ← emit TOKENS.YIELD n ("yield".length : Int)
      let c1 ← visitOpt argument
      pure (t :: c1)
  | n@(Node.mk _ _ (NodeKind.awaitExpression argument)) => do
      let t ← emit TOKENS.AWAIT n ("await".length : Int)
      let c1 ← visitNode argument
      pure (t :: c1)
  | n@(Node.mk _ _ NodeKind.importDeclaration) => do
      let t ← emit TOKENS.IMPORT n ("import".length : Int)
      pure [t]
  | n@(Node.mk _ _ (NodeKind.exportNamedDeclaration declaration)) => do
      let t ← emit TOKENS.EXPORT n ("export".length : Int)
      let c1 ← visitOpt declaration
      pure (t :: c1)
  | n@(Node.mk _ _ (NodeKind.exportDefaultDeclaration declaration)) => do
      let t ← emit TOKENS.EXPORT n ("export".length : Int)
      let c1 ← visitNode declaration
      pure (t :: c1)
  | n@(Node.mk _ _ NodeKind.exportAllDeclaration) => do
      let t ← emit TOKENS.EXPORT n ("export".length : Int)
      pure [t]

/-- Default traversal of a list-valued child field, in source order. -/
def visitList : NodeList → Except String (List Token)
  | NodeList.nil => Except.ok []
  | NodeList.cons head tail => do
      let a ← visitNode head
      let b ← visitList tail
      pure (a ++ b)

/-- Default traversal of a nullable child field. -/
def visitOpt : NodeOpt → Except String (List Token)
  | NodeOpt.none => Except.ok []
  | NodeOpt.some node => visitNode node

end

/-- ASTToTokens(ast): travel the tree collecting emissions in traversal
order. -/
def ASTToTokens (ast : Node) : Except String (List Token) :=
  visitNode ast

mutual

/-- All nodes of a tree: the node itself and, recursively, the nodes of
every child field. -/
def Node.subnodes : Node → List Node
  | Node.mk loc range kind => Node.mk loc range kind :: NodeKind.subnodesK kind

/-- The nodes reachable through the children of a kind. -/
def NodeKind.subnodesK : NodeKind → List Node
  | NodeKind.program body => body.subnodesL
  | NodeKind.expressionStatement expression => expression.subnodes
  | NodeKind.blockStatement body => body.subnodesL
  | NodeKind.identifier _ => []
  | NodeKind.literal => []
  | NodeKind.binaryExpression _ left right => left.subnodes ++ right.subnodes
  | NodeKind.memberExpression object property => object.subnodes ++ property.subnodes
  | NodeKind.property key value => key.subnodes ++ value.subnodes
  | NodeKind.methodDefinition key value => key.subnodes ++ value.subnodes
  | NodeKind.variableDeclaration declarations => declarations.subnodesL
  | NodeKind.variableDeclarator id init => id.subnodes ++ init.subnodesO
  | NodeKind.forStatement init test update body =>
      init.subnodesO ++ test.subnodesO ++ update.subnodesO ++ body.subnodes
  | NodeKind.forOfStatement left right body =>
      left.subnodes ++ right.subnodes ++ body.subnodes
  | NodeKind.forInStatement left right body =>
      left.subnodes ++ right.subnodes ++ body.subnodes
  | NodeKind.functionDeclaration id params body =>
      id.subnodesO ++ params.subnodesL ++ body.subnodes
  | NodeKind.functionExpression id params body =>
      id.subnodesO ++ params.subnodesL ++ body.subnodes
  | NodeKind.arrowFunctionExpression params body =>
      params.subnodesL ++ body.subnodes
  | NodeKind.breakStatement => []
  | NodeKind.continueStatement => []
  | NodeKind.callExpression callee arguments =>
      callee.subnodes ++ arguments.subnodesL
  | NodeKind.ifStatement test consequent alternate =>
      test.subnodes ++ consequent.subnodes ++ alternate.subnodesO
  | NodeKind.classDeclaration id body => id.subnodesO ++ body.subnodesL
  | NodeKind.classExpression id body => id.subnodesO ++ body.subnodesL
  | NodeKind.withStatement object body => object.subnodes ++ body.subnodes
  | NodeKind.switchStatement discriminant cases =>
      discriminant.subnodes ++ cases.subnodesL
  | NodeKind.switchCase test consequent => test.subnodesO ++ consequent.subnodesL
  | NodeKind.returnStatement argument => argument.subnodesO
  | NodeKind.throwStatement argument => argument.subnodes
  | NodeKind.tryStatement block handler finalizer =>
      block.subnodes ++ handler.subnodesO ++ finalizer.subnodesO
  | NodeKind.catchClause param body => param.subnodesO ++ body.subnodes
  | NodeKind.whileStatement test body => test.subnodes ++ body.subnodes
  | NodeKind.doWhileStatement body test => body.subnodes ++ test.subnodes
  | NodeKind.arrayExpression elements => elements.subnodesL
  | NodeKind.objectExpression properties => properties.subnodesL
  | NodeKind.assignmentExpression _ left right => left.subnodes ++ right.subnodes
  | NodeKind.updateExpression _ argument => argument.subnodes
  | NodeKind.conditionalExpression test consequent alternate =>
      test.subnodes ++ consequent.subnodes ++ alternate.subnodes
  | NodeKind.yieldExpression argument => argument.subnodesO
  | NodeKind.awaitExpression argument => argument.subnodes
  | NodeKind.importDeclaration => []
  | NodeKind.exportNamedDeclaration declaration => declaration.subnodesO
  | NodeKind.exportDefaultDeclaration declaration => declaration.subnodes
  | NodeKind.exportAllDeclaration => []

/-- Nodes of a list-valued field. -/
def NodeList.subnodesL : NodeList → List Node
  | NodeList.nil => []
  | NodeList.cons head tail => head.subnodes ++ tail.subnodesL

/-- Nodes of a nullable field. -/
def NodeOpt.subnodesO : NodeOpt → List Node
  | NodeOpt.none => []
  | NodeOpt.some node => node.subnodes

end

/-- The sort order of doParse: compare line numbers, then columns.  The
source sorts with the comparator (a, b) => sign info of
(a.line - b.line, then a.column - b.column). -/
def tokLE (a b : Token) : Prop :=
  a.line < b.line ∨ (a.line = b.line ∧ a.column ≤ b.column)

instance tokLE_dec : DecidableRel tokLE := fun a b =>
  inferInstanceAs (Decidable (a.line < b.line ∨ (a.line = b.line ∧ a.column ≤ b.column)))

instance tokLE_total : IsTotal Token tokLE :=
  ⟨by intro a b; unfold tokLE; omega⟩

instance tokLE_trans : IsTrans Token tokLE :=
  ⟨by intro a b c; unfold tokLE; omega⟩

/-- res.sort with the (line, column) comparator.  Array.prototype.sort is
required by the ECMAScript specification to be stable; the unique stable
sort for this total preorder is insertion sort with tokLE. -/
def sortTokens (ts : List Token) : List Token :=
  List.insertionSort tokLE ts

/-- parseToAst(content): try the strict acorn parser, on a thrown parse
error log it and run the loose parser on the same content; a loose-parse
error is not caught and propagates.  Both external parsers are parameters
of the embedding. -/
def parseToAst (strict loose : String → Except String Node)
    (content : String) : Except String Node :=
  match strict content with
  | Except.ok ast => Except.ok ast
  | Except.error _ => loose content

/-- doParse(filename): read the file (the content is a parameter here),
parse it, convert the tree to tokens, and sort the result.  Any error of
parsing or conversion propagates and no token list is produced. -/
def doParse (strict loose : String → Except String Node)
    (content : String) : Except String (List Token) := do
  let ast ← parseToAst strict loose content
  let res ← ASTToTokens ast
  pure (sortTokens res)

/-- True of a token sitting at the given line and column; used to state
the stability of the final sort. -/
def atPos (l c : Nat) (t : Token) : Bool :=
  t.line == l && t.column == c

/-- A location within line 1 - scenario inputs below are single-line. -/
def l1 (a b : Nat) : SrcLoc :=
  { start := { line := 1, column := a }, stop := { line := 1, column := b } }

/-- Scenario A source text: a C-style for statement. -/
def srcA : String := "for (let i = 0; i < 3; i++) \x7b\x7d"

/-- Identifier i of the init declarator of scenario A, columns 9-10. -/
def idA1 : Node := Node.mk (l1 9 10) (9, 10) (NodeKind.identifier "i")

/-- The literal 0 of scenario A, columns 13-14. -/
def litA0 : Node := Node.mk (l1 13 14) (13, 14) NodeKind.literal

/-- The declarator i = 0 of scenario A, columns 9-14. -/
def declA : Node :=
  Node.mk (l1 9 14) (9, 14) (NodeKind.variableDeclarator idA1 (NodeOpt.some litA0))

/-- The declaration let i = 0 of scenario A, columns 5-14. -/
def varDeclA : Node :=
  Node.mk (l1 5 14) (5, 14)
    (NodeKind.variableDeclaration (NodeList.cons declA NodeList.nil))

/-- The test i < 3 of scenario A, columns 16-21. -/
def testA : Node :=
  Node.mk (l1 16 21) (16, 21)
    (NodeKind.binaryExpression "<"
      (Node.mk (l1 16 17) (16, 17) (NodeKind.identifier "i"))
      (Node.mk (l1 20 21) (20, 21) NodeKind.literal))

/-- The update i++ of scenario A, columns 23-26. -/
def updA : Node :=
  Node.mk (l1 23 26) (23, 26)
    (NodeKind.updateExpression "++"
      (Node.mk (l1 23 24) (23, 24) (NodeKind.identifier "i")))

/-- The empty body block of scenario A, columns 28-30. -/
def blockA : Node := Node.mk (l1 28 30) (28, 30) (NodeKind.blockStatement NodeList.nil)

/-- The for statement of scenario A, columns 0-30. -/
def forNodeA : Node :=
  Node.mk (l1 0 30) (0, 30)
    (NodeKind.forStatement (NodeOpt.some varDeclA) (NodeOpt.some testA)
      (NodeOpt.some updA) blockA)

/-- The acorn tree of scenario A. -/
def astA : Node :=
  Node.mk (l1 0 30) (0, 30) (NodeKind.program (NodeList.cons forNodeA NodeList.nil))

/-- A strict parser stub that yields the scenario A tree. -/
def strictA : String → Except String Node := fun _ => Except.ok astA

/-- A loose parser stub that always fails (never reached in the
scenarios: the strict stub succeeds). -/
def looseFail : String → Except String Node := fun _ => Except.error "loose parse failed"

/-- Scenario C source text: an if statement with an else branch. -/
def srcC : String := "if (x) \x7b\x7d else \x7b\x7d"

/-- The test identifier x of scenario C, columns 4-5. -/
def testC : Node := Node.mk (l1 4 5) (4, 5) (NodeKind.identifier "x")

/-- The consequent block of scenario C, columns 7-9. -/
def consC : Node := Node.mk (l1 7 9) (7, 9) (NodeKind.blockStatement NodeList.nil)

/-- The alternate block of scenario C, columns 15-17; the else keyword
itself sits at columns 10-14 and is not a node. -/
def altC : Node := Node.mk (l1 15 17) (15, 17) (NodeKind.blockStatement NodeList.nil)

/-- The if statement of scenario C, columns 0-17. -/
def ifNodeC : Node :=
  Node.mk (l1 0 17) (0, 17) (NodeKind.ifStatement testC consC (NodeOpt.some altC))

/-- The acorn tree of scenario C. -/
def astC : Node :=
  Node.mk (l1 0 17) (0, 17) (NodeKind.program (NodeList.cons ifNodeC NodeList.nil))

/-- A strict parser stub that yields the scenario C tree. -/
def strictC : String → Except String Node := fun _ => Except.ok astC

/-- The sorted output of doParse for scenario A: the C-style for header
emits an ASSIGN for the initialized declarator (column 9, the length of
the name i) and an ASSIGN for the update expression (column 23, the
length of the ++ operator). -/
def outA : List Token :=
  [ Token.mk (TokenId.mk "FOR_BEGIN" 2) 1 0 3
  , Token.mk (TokenId.mk "ASSIGN" 30) 1 9 1
  , Token.mk (TokenId.mk "ASSIGN" 30) 1 23 2
  , Token.mk (TokenId.mk "FOR_END" 3) 1 29 1 ]

/-- The sorted output of doParse for scenario C: the ELSE marker sits at
column 15, the start of the alternate block, not at column 10 where the
else keyword starts. -/
def outC : List Token :=
  [ Token.mk (TokenId.mk "IF_BEGIN" 8) 1 0 2
  , Token.mk (TokenId.mk "ELSE" 10) 1 15 1
  , Token.mk (TokenId.mk "IF_END" 9) 1 16 1 ]

/-- Recognizer for ASSIGN tokens. -/
def isAssignTok (t : Token) : Bool := t.token.value == TOKENS.ASSIGN

/-- Recognizer for an ELSE token at a given column. -/
def isElseAt (c : Nat) (t : Token) : Bool :=
  t.token.value == TOKENS.ELSE && t.column == c

/-- Witness source for the implicit function claim: an arrow function
whose text contains no function keyword. -/
def srcW : String := "x => x"

/-- The parameter x of the witness arrow function, columns 0-1. -/
def idW1 : Node := Node.mk (l1 0 1) (0, 1) (NodeKind.identifier "x")

/-- The body x of the witness arrow function, columns 5-6. -/
def idW2 : Node := Node.mk (l1 5 6) (5, 6) (NodeKind.identifier "x")

/-- The witness arrow function node for srcW, columns 0-6. -/
def arrowW : Node :=
  Node.mk (l1 0 6) (0, 6)
    (NodeKind.arrowFunctionExpression (NodeList.cons idW1 NodeList.nil) idW2)

/-- A strict parser stub that always fails. -/
def strictFail : String → Except String Node :=
  fun _ => Except.error "SyntaxError: strict parse failed"

/-- The invariant carried through the traversal: every emitted token has a
positive length, and a token with an END-suffixed kind name has length 1
and sits at the shifted end position of some node of the given pool. -/
def TokOkIn (pool : List Node) (t : Token) : Prop :=
  1 ≤ t.length ∧ (strEndsWith t.token.key "END" = true →
    t.length = 1 ∧ ∃ m, m ∈ pool ∧ t.line = m.loc.stop.line ∧
      t.column = Nat.max (m.loc.stop.column - 1) 0)


theorem exceptBind_ok {ε α β : Type} {m : Except ε α} {f : α → Except ε β} {b : β} :
    (m >>= f) = Except.ok b ↔ ∃ a, m = Except.ok a ∧ f a = Except.ok b := by
  cases m with
  | ok a => simp [Bind.bind, Except.bind]
  | error e => simp [Bind.bind, Except.bind]

theorem exceptPure_ok {ε α : Type} {a b : α} :
    (pure a : Except ε α) = Except.ok b ↔ b = a := by
  constructor
  · intro h
    exact (Except.ok.inj h).symm
  · intro h
    rw [h]
    rfl

theorem emit_ok {tok : Nat} {n : Node} {len : Int} {t : Token} :
    emit tok n len = Except.ok t ↔ (0 < len ∧ t = mkTok tok n len) := by
  constructor
  · intro h
    unfold emit at h
    split at h
    · exact ⟨by assumption, (Except.ok.inj h).symm⟩
    · cases h
  · rintro ⟨h1, rfl⟩
    unfold emit
    rw [if_pos h1]

theorem emitEnd_ok {tok : Nat} {n : Node} {a : Option Int} {t : Token} :
    emitEnd tok n a = Except.ok t ↔
      (strEndsWith (TOKENS_REVERSE tok) "END" = true ∧ t = mkEndTok tok n) := by
  constructor
  · intro h
    unfold emitEnd at h
    split at h
    · exact ⟨by assumption, (Except.ok.inj h).symm⟩
    · cases h
  · rintro ⟨h1, rfl⟩
    unfold emitEnd
    rw [if_pos h1]

theorem tokOkIn_mono {p q : List Node} {t : Token} (h : TokOkIn p t)
    (sub : ∀ x, x ∈ p → x ∈ q) : TokOkIn q t := by
  obtain ⟨h1, h2⟩ := h
  refine ⟨h1, fun he => ?_⟩
  obtain ⟨hl, m, hm, hline, hcol⟩ := h2 he
  exact ⟨hl, m, sub m hm, hline, hcol⟩

theorem emit_tokOkIn {tok : Nat} {n : Node} {len : Int} {t : Token}
    (h : emit tok n len = Except.ok t)
    (hkey : strEndsWith (TOKENS_REVERSE tok) "END" = false)
    (p : List Node) : TokOkIn p t := by
  obtain ⟨hlen, rfl⟩ := emit_ok.mp h
  refine ⟨by simpa [mkTok] using hlen, fun he => ?_⟩
  rw [show (mkTok tok n len).token.key = TOKENS_REVERSE tok from rfl] at he
  rw [hkey] at he
  cases he

theorem emitEnd_tokOkIn {tok : Nat} {n : Node} {a : Option Int} {t : Token}
    (h : emitEnd tok n a = Except.ok t)
    {p : List Node} (hp : n ∈ p) : TokOkIn p t := by
  obtain ⟨hkey, rfl⟩ := emitEnd_ok.mp h
  exact ⟨by simp [mkEndTok], fun _ => ⟨rfl, n, hp, rfl, rfl⟩⟩

mutual

theorem visitNode_tokOk (n : Node) (ts : List Token)
    (h : visitNode n = Except.ok ts) : ∀ t ∈ ts, TokOkIn n.subnodes t := by
  cases n with
  | mk loc range kind =>
    cases kind with
    | program body =>
        rw [visitNode] at h
        intro t ht
        refine tokOkIn_mono (visitList_tokOk body ts h t ht) ?_
        intro x hx
        simp only [Node.subnodes, NodeKind.subnodesK, List.mem_cons]
        exact Or.inr hx
    | literal =>
        rw [visitNode] at h
        cases h
        intro t ht
        cases ht
    | whileStatement test body =>
        rw [visitNode] at h
        simp only [exceptBind_ok, exceptPure_ok] at h
        obtain ⟨v1, h1, v2, h2, v3, h3, v4, h4, hts⟩ := h
        subst hts
        intro t ht
        simp only [List.mem_cons, List.mem_append, List.mem_singleton, List.mem_nil_iff, or_false, or_assoc] at ht
        rcases ht with rfl | ht | ht | rfl
        · exact emit_tokOkIn h1 (by decide) _
        · refine tokOkIn_mono (visitNode_tokOk test v2 h2 t ht) ?_
          intro x hx
          simp only [Node.subnodes, NodeKind.subnodesK, NodeOpt.subnodesO, NodeList.subnodesL, List.mem_cons, List.mem_append, List.append_nil]
          tauto
        · refine tokOkIn_mono (visitNode_tokOk body v3 h3 t ht) ?_
          intro x hx
          simp only [Node.subnodes, NodeKind.subnodesK, NodeOpt.subnodesO, NodeList.subnodesL, List.mem_cons, List.mem_append, List.append_nil]
          tauto
        · refine emitEnd_tokOkIn h4 ?_
          simp only [Node.subnodes]
          exact List.mem_cons_self _ _
    | expressionStatement expression =>
        rw [visitNode] at h
        intro t ht
        refine tokOkIn_mono (visitNode_tokOk expression ts h t ht) ?_
        intro x hx
        simp only [Node.subnodes, NodeKind.subnodesK, NodeOpt.subnodesO, NodeList.subnodesL, List.mem_cons, List.mem_append, List.append_nil]
        tauto
    | blockStatement body =>
        rw [visitNode] at h
        intro t ht
        refine tokOkIn_mono (visitList_tokOk body ts h t ht) ?_
        intro x hx
        simp only [Node.subnodes, NodeKind.subnodesK, NodeOpt.subnodesO, NodeList.subnodesL, List.mem_cons, List.mem_append, List.append_nil]
        tauto
    | identifier _ =>
        rw [visitNode] at h
        cases h
        intro t ht
        cases ht
    | binaryExpression _ left right =>
        rw [visitNode] at h
        simp only [exceptBind_ok, exceptPure_ok] at h
        obtain ⟨v1, h1, v2, h2, hts⟩ := h
        subst hts
        intro t ht
        simp only [List.mem_cons, List.mem_append, List.mem_singleton, List.mem_nil_iff, or_false, or_assoc] at ht
        rcases ht with ht | ht
        · refine tokOkIn_mono (visitNode_tokOk left v1 h1 t ht) ?_
          intro x hx
          simp only [Node.subnodes, NodeKind.subnodesK, NodeOpt.subnodesO, NodeList.subnodesL, List.mem_cons, List.mem_append, List.append_nil]
          tauto
        · refine tokOkIn_mono (visitNode_tokOk right v2 h2 t ht) ?_
          intro x hx
          simp only [Node.subnodes, NodeKind.subnodesK, NodeOpt.subnodesO, NodeList.subnodesL, List.mem_cons, List.mem_append, List.append_nil]
          tauto
    | memberExpression object property =>
        rw [visitNode] at h
        simp only [exceptBind_ok, exceptPure_ok] at h
        obtain ⟨v1, h1, v2, h2, hts⟩ := h
        subst hts
        intro t ht
        simp only [List.mem_cons, List.mem_append, List.mem_singleton, List.mem_nil_iff, or_false, or_assoc] at ht
        rcases ht with ht | ht
        · refine tokOkIn_mono (visitNode_tokOk object v1 h1 t ht) ?_
          intro x hx
          simp only [Node.subnodes, NodeKind.subnodesK, NodeOpt.subnodesO, NodeList.subnodesL, List.mem_cons, List.mem_append, List.append_nil]
          tauto
        · refine tokOkIn_mono (visitNode_tokOk property v2 h2 t ht) ?_
          intro x hx
          simp only [Node.subnodes, NodeKind.subnodesK, NodeOpt.subnodesO, NodeList.subnodesL, List.mem_cons, List.mem_append, List.append_nil]
          tauto
    | property key value =>
        rw [visitNode] at h
        simp only [exceptBind_ok, exceptPure_ok] at h
        obtain ⟨v1, h1, v2, h2, hts⟩ := h
        subst hts
        intro t ht
        simp only [List.mem_cons, List.mem_append, List.mem_singleton, List.mem_nil_iff, or_false, or_assoc] at ht
        rcases ht with ht | ht
        · refine tokOkIn_mono (visitNode_tokOk key v1 h1 t ht) ?_
          intro x hx
          simp only [Node.subnodes, NodeKind.subnodesK, NodeOpt.subnodesO, NodeList.subnodesL, List.mem_cons, List.mem_append, List.append_nil]
          tauto
        · refine tokOkIn_mono (visitNode_tokOk value v2 h2 t ht) ?_
          intro x hx
          simp only [Node.subnodes, NodeKind.subnodesK, NodeOpt.subnodesO, NodeList.subnodesL, List.mem_cons, List.mem_append, List.append_nil]
          tauto
    | methodDefinition key value =>
        rw [visitNode] at h
        simp only [exceptBind_ok, exceptPure_ok] at h
        obtain ⟨v1, h1, v2, h2, hts⟩ := h
        subst hts
        intro t ht
        simp only [List.mem_cons, List.mem_append, List.mem_singleton, List.mem_nil_iff, or_false, or_assoc] at ht
        rcases ht with ht | ht
        · refine tokOkIn_mono (visitNode_tokOk key v1 h1 t ht) ?_
          intro x hx
          simp only [Node.subnodes, NodeKind.subnodesK, NodeOpt.subnodesO, NodeList.subnodesL, List.mem_cons, List.mem_append, List.append_nil]
          tauto
        · refine tokOkIn_mono (visitNode_tokOk value v2 h2 t ht) ?_
          intro x hx
          simp only [Node.subnodes, NodeKind.subnodesK, NodeOpt.subnodesO, NodeList.subnodesL, List.mem_cons, List.mem_append, List.append_nil]
          tauto
    | variableDeclaration declarations =>
        rw [visitNode] at h
        intro t ht
        refine tokOkIn_mono (visitList_tokOk declarations ts h t ht) ?_
        intro x hx
        simp only [Node.subnodes, NodeKind.subnodesK, NodeOpt.subnodesO, NodeList.subnodesL, List.mem_cons, List.mem_append, List.append_nil]
        tauto
    | forStatement init test update body =>
        rw [visitNode] at h
        simp only [exceptBind_ok, exceptPure_ok] at h
        obtain ⟨v1, h1, v2, h2, v3, h3, v4, h4, v5, h5, v6, h6, hts⟩ := h
        subst hts
        intro t ht
        simp only [List.mem_cons, List.mem_append, List.mem_singleton, List.mem_nil_iff, or_false, or_assoc] at ht
        rcases ht with rfl | ht | ht | ht | ht | rfl
        · exact emit_tokOkIn h1 (by decide) _
        · refine tokOkIn_mono (visitOpt_tokOk init v2 h2 t ht) ?_
          intro x hx
          simp only [Node.subnodes, NodeKind.subnodesK, NodeOpt.subnodesO, NodeList.subnodesL, List.mem_cons, List.mem_append, List.append_nil]
          tauto
        · refine tokOkIn_mono (visitOpt_tokOk test v3 h3 t ht) ?_
          intro x hx
          simp only [Node.subnodes, NodeKind.subnodesK, NodeOpt.subnodesO, NodeList.subnodesL, List.mem_cons, List.mem_append, List.append_nil]
          tauto
        · refine tokOkIn_mono (visitOpt_tokOk update v4 h4 t ht) ?_
          intro x hx
          simp only [Node.subnodes, NodeKind.subnodesK, NodeOpt.subnodesO, NodeList.subnodesL, List.mem_cons, List.mem_append, List.append_nil]
          tauto
        · refine tokOkIn_mono (visitNode_tokOk body v5 h5 t ht) ?_
          intro x hx
          simp only [Node.subnodes, NodeKind.subnodesK, NodeOpt.subnodesO, NodeList.subnodesL, List.mem_cons, List.mem_append, List.append_nil]
          tauto
        · refine emitEnd_tokOkIn h6 ?_
          simp only [Node.subnodes]
          exact List.mem_cons_self _ _
    | forOfStatement left right body =>
        rw [visitNode] at h
        simp only [exceptBind_ok, exceptPure_ok] at h
        obtain ⟨v1, h1, v2, h2, v3, h3, v4, h4, v5, h5, v6, h6, hts⟩ := h
        subst hts
        intro t ht
        simp only [List.mem_cons, List.mem_append, List.mem_singleton, List.mem_nil_iff, or_false, or_assoc] at ht
        rcases ht with rfl | ht | rfl | ht | ht | rfl
        · exact emit_tokOkIn h1 (by decide) _
        · refine tokOkIn_mono (visitNode_tokOk left v2 h2 t ht) ?_
          intro x hx
          simp only [Node.subnodes, NodeKind.subnodesK, NodeOpt.subnodesO, NodeList.subnodesL, List.mem_cons, List.mem_append, List.append_nil]
          tauto
        · exact emit_tokOkIn h3 (by decide) _
        · refine tokOkIn_mono (visitNode_tokOk right v4 h4 t ht) ?_
          intro x hx
          simp only [Node.subnodes, NodeKind.subnodesK, NodeOpt.subnodesO, NodeList.subnodesL, List.mem_cons, List.mem_append, List.append_nil]
          tauto
        · refine tokOkIn_mono (visitNode_tokOk body v5 h5 t ht) ?_
          intro x hx
          simp only [Node.subnodes, NodeKind.subnodesK, NodeOpt.subnodesO, NodeList.subnodesL, List.mem_cons, List.mem_append, List.append_nil]
          tauto
        · refine emitEnd_tokOkIn h6 ?_
          simp only [Node.subnodes]
          exact List.mem_cons_self _ _
    | forInStatement left right body =>
        rw [visitNode] at h
        simp only [exceptBind_ok, exceptPure_ok] at h
        obtain ⟨v1, h1, v2, h2, v3, h3, v4, h4, v5, h5, v6, h6, hts⟩ := h
        subst hts
        intro t ht
        simp only [List.mem_cons, List.mem_append, List.mem_singleton, List.mem_nil_iff, or_false, or_assoc] at ht
        rcases ht with rfl | ht | rfl | ht | ht | rfl
        · exact emit_tokOkIn h1 (by decide) _
        · refine tokOkIn_mono (visitNode_tokOk left v2 h2 t ht) ?_
          intro x hx
          simp only [Node.subnodes, NodeKind.subnodesK, NodeOpt.subnodesO, NodeList.subnodesL, List.mem_cons, List.mem_append, List.append_nil]
          tauto
        · exact emit_tokOkIn h3 (by decide) _
        · refine tokOkIn_mono (visitNode_tokOk right v4 h4 t ht) ?_
          intro x hx
          simp only [Node.subnodes, NodeKind.subnodesK, NodeOpt.subnodesO, NodeList.subnodesL, List.mem_cons, List.mem_append, List.append_nil]
          tauto
        · refine tokOkIn_mono (visitNode_tokOk body v5 h5 t ht) ?_
          intro x hx
          simp only [Node.subnodes, NodeKind.subnodesK, NodeOpt.subnodesO, NodeList.subnodesL, List.mem_cons, List.mem_append, List.append_nil]
          tauto
        · refine emitEnd_tokOkIn h6 ?_
          simp only [Node.subnodes]
          exact List.mem_cons_self _ _
    | functionDeclaration id params body =>
        rw [visitNode] at h
        simp only [exceptBind_ok, exceptPure_ok] at h
        obtain ⟨v1, h1, v2, h2, v3, h3, v4, h4, v5, h5, hts⟩ := h
        subst hts
        intro t ht
        simp only [List.mem_cons, List.mem_append, List.mem_singleton, List.mem_nil_iff, or_false, or_assoc] at ht
        rcases ht with rfl | ht | ht | ht | rfl
        · exact emit_tokOkIn h1 (by decide) _
        · refine tokOkIn_mono (visitOpt_tokOk id v2 h2 t ht) ?_
          intro x hx
          simp only [Node.subnodes, NodeKind.subnodesK, NodeOpt.subnodesO, NodeList.subnodesL, List.mem_cons, List.mem_append, List.append_nil]
          tauto
        · refine tokOkIn_mono (visitList_tokOk params v3 h3 t ht) ?_
          intro x hx
          simp only [Node.subnodes, NodeKind.subnodesK, NodeOpt.subnodesO, NodeList.subnodesL, List.mem_cons, List.mem_append, List.append_nil]
          tauto
        · refine tokOkIn_mono (visitNode_tokOk body v4 h4 t ht) ?_
          intro x hx
          simp only [Node.subnodes, NodeKind.subnodesK, NodeOpt.subnodesO, NodeList.subnodesL, List.mem_cons, List.mem_append, List.append_nil]
          tauto
        · refine emitEnd_tokOkIn h5 ?_
          simp only [Node.subnodes]
          exact List.mem_cons_self _ _
    | functionExpression id params body =>
        rw [visitNode] at h
        simp only [exceptBind_ok, exceptPure_ok] at h
        obtain ⟨v1, h1, v2, h2, v3, h3, v4, h4, v5, h5, hts⟩ := h
        subst hts
        intro t ht
        simp only [List.mem_cons, List.mem_append, List.mem_singleton, List.mem_nil_iff, or_false, or_assoc] at ht
        rcases ht with rfl | ht | ht | ht | rfl
        · exact emit_tokOkIn h1 (by decide) _
        · refine tokOkIn_mono (visitOpt_tokOk id v2 h2 t ht) ?_
          intro x hx
          simp only [Node.subnodes, NodeKind.subnodesK, NodeOpt.subnodesO, NodeList.subnodesL, List.mem_cons, List.mem_append, List.append_nil]
          tauto
        · refine tokOkIn_mono (visitList_tokOk params v3 h3 t ht) ?_
          intro x hx
          simp only [Node.subnodes, NodeKind.subnodesK, NodeOpt.subnodesO, NodeList.subnodesL, List.mem_cons, List.mem_append, List.append_nil]
          tauto
        · refine tokOkIn_mono (visitNode_tokOk body v4 h4 t ht) ?_
          intro x hx
          simp only [Node.subnodes, NodeKind.subnodesK, NodeOpt.subnodesO, NodeList.subnodesL, List.mem_cons, List.mem_append, List.append_nil]
          tauto
        · refine emitEnd_tokOkIn h5 ?_
          simp only [Node.subnodes]
          exact List.mem_cons_self _ _
    | arrowFunctionExpression params body =>
        rw [visitNode] at h
        simp only [exceptBind_ok, exceptPure_ok] at h
        obtain ⟨v1, h1, v2, h2, v3, h3, v4, h4, hts⟩ := h
        subst hts
        intro t ht
        simp only [List.mem_cons, List.mem_append, List.mem_singleton, List.mem_nil_iff, or_false, or_assoc] at ht
        rcases ht with rfl | ht | ht | rfl
        · exact emit_tokOkIn h1 (by decide) _
        · refine tokOkIn_mono (visitList_tokOk params v2 h2 t ht) ?_
          intro x hx
          simp only [Node.subnodes, NodeKind.subnodesK, NodeOpt.subnodesO, NodeList.subnodesL, List.mem_cons, List.mem_append, List.append_nil]
          tauto
        · refine tokOkIn_mono (visitNode_tokOk body v3 h3 t ht) ?_
          intro x hx
          simp only [Node.subnodes, NodeKind.subnodesK, NodeOpt.subnodesO, NodeList.subnodesL, List.mem_cons, List.mem_append, List.append_nil]
          tauto
        · refine emitEnd_tokOkIn h4 ?_
          simp only [Node.subnodes]
          exact List.mem_cons_self _ _
    | breakStatement =>
        rw [visitNode] at h
        simp only [exceptBind_ok, exceptPure_ok] at h
        obtain ⟨v1, h1, hts⟩ := h
        subst hts
        intro t ht
        simp only [List.mem_cons, List.mem_append, List.mem_singleton, List.mem_nil_iff, or_false, or_assoc] at ht
        subst ht
        exact emit_tokOkIn h1 (by decide) _
    | continueStatement =>
        rw [visitNode] at h
        simp only [exceptBind_ok, exceptPure_ok] at h
        obtain ⟨v1, h1, hts⟩ := h
        subst hts
        intro t ht
        simp only [List.mem_cons, List.mem_append, List.mem_singleton, List.mem_nil_iff, or_false, or_assoc] at ht
        subst ht
        exact emit_tokOkIn h1 (by decide) _
    | callExpression callee arguments =>
        rw [visitNode] at h
        simp only [exceptBind_ok, exceptPure_ok] at h
        obtain ⟨v1, h1, v2, h2, v3, h3, hts⟩ := h
        subst hts
        intro t ht
        simp only [List.mem_cons, List.mem_append, List.mem_singleton, List.mem_nil_iff, or_false, or_assoc] at ht
        rcases ht with rfl | ht | ht
        · exact emit_tokOkIn h1 (by decide) _
        · refine tokOkIn_mono (visitNode_tokOk callee v2 h2 t ht) ?_
          intro x hx
          simp only [Node.subnodes, NodeKind.subnodesK, NodeOpt.subnodesO, NodeList.subnodesL, List.mem_cons, List.mem_append, List.append_nil]
          tauto
        · refine tokOkIn_mono (visitList_tokOk arguments v3 h3 t ht) ?_
          intro x hx
          simp only [Node.subnodes, NodeKind.subnodesK, NodeOpt.subnodesO, NodeList.subnodesL, List.mem_cons, List.mem_append, List.append_nil]
          tauto
    | classDeclaration id body =>
        rw [visitNode] at h
        simp only [exceptBind_ok, exceptPure_ok] at h
        obtain ⟨v1, h1, v2, h2, v3, h3, v4, h4, hts⟩ := h
        subst hts
        intro t ht
        simp only [List.mem_cons, List.mem_append, List.mem_singleton, List.mem_nil_iff, or_false, or_assoc] at ht
        rcases ht with rfl | ht | ht | rfl
        · exact emit_tokOkIn h1 (by decide) _
        · refine tokOkIn_mono (visitOpt_tokOk id v2 h2 t ht) ?_
          intro x hx
          simp only [Node.subnodes, NodeKind.subnodesK, NodeOpt.subnodesO, NodeList.subnodesL, List.mem_cons, List.mem_append, List.append_nil]
          tauto
        · refine tokOkIn_mono (visitList_tokOk body v3 h3 t ht) ?_
          intro x hx
          simp only [Node.subnodes, NodeKind.subnodesK, NodeOpt.subnodesO, NodeList.subnodesL, List.mem_cons, List.mem_append, List.append_nil]
          tauto
        · refine emitEnd_tokOkIn h4 ?_
          simp only [Node.subnodes]
          exact List.mem_cons_self _ _
    | classExpression id body =>
        rw [visitNode] at h
        simp only [exceptBind_ok, exceptPure_ok] at h
        obtain ⟨v1, h1, v2, h2, v3, h3, v4, h4, hts⟩ := h
        subst hts
        intro t ht
        simp only [List.mem_cons, List.mem_append, List.mem_singleton, List.mem_nil_iff, or_false, or_assoc] at ht
        rcases ht with rfl | ht | ht | rfl
        · exact emit_tokOkIn h1 (by decide) _
        · refine tokOkIn_mono (visitOpt_tokOk id v2 h2 t ht) ?_
          intro x hx
          simp only [Node.subnodes, NodeKind.subnodesK, NodeOpt.subnodesO, NodeList.subnodesL, List.mem_cons, List.mem_append, List.append_nil]
          tauto
        · refine tokOkIn_mono (visitList_tokOk body v3 h3 t ht) ?_
          intro x hx
          simp only [Node.subnodes, NodeKind.subnodesK, NodeOpt.subnodesO, NodeList.subnodesL, List.mem_cons, List.mem_append, List.append_nil]
          tauto
        · refine emitEnd_tokOkIn h4 ?_
          simp only [Node.subnodes]
          exact List.mem_cons_self _ _
    | withStatement object body =>
        rw [visitNode] at h
        simp only [exceptBind_ok, exceptPure_ok] at h
        obtain ⟨v1, h1, v2, h2, v3, h3, v4, h4, hts⟩ := h
        subst hts
        intro t ht
        simp only [List.mem_cons, List.mem_append, List.mem_singleton, List.mem_nil_iff, or_false, or_assoc] at ht
        rcases ht with rfl | ht | ht | rfl
        · exact emit_tokOkIn h1 (by decide) _
        · refine tokOkIn_mono (visitNode_tokOk object v2 h2 t ht) ?_
          intro x hx
          simp only [Node.subnodes, NodeKind.subnodesK, NodeOpt.subnodesO, NodeList.subnodesL, List.mem_cons, List.mem_append, List.append_nil]
          tauto
        · refine tokOkIn_mono (visitNode_tokOk body v3 h3 t ht) ?_
          intro x hx
          simp only [Node.subnodes, NodeKind.subnodesK, NodeOpt.subnodesO, NodeList.subnodesL, List.mem_cons, List.mem_append, List.append_nil]
          tauto
        · refine emitEnd_tokOkIn h4 ?_
          simp only [Node.subnodes]
          exact List.mem_cons_self _ _
    | switchStatement discriminant cases =>
        rw [visitNode] at h
        simp only [exceptBind_ok, exceptPure_ok] at h
        obtain ⟨v1, h1, v2, h2, v3, h3, v4, h4, hts⟩ := h
        subst hts
        intro t ht
        simp only [List.mem_cons, List.mem_append, List.mem_singleton, List.mem_nil_iff, or_false, or_assoc] at ht
        rcases ht with rfl | ht | ht | rfl
        · exact emit_tokOkIn h1 (by decide) _
        · refine tokOkIn_mono (visitNode_tokOk discriminant v2 h2 t ht) ?_
          intro x hx
          simp only [Node.subnodes, NodeKind.subnodesK, NodeOpt.subnodesO, NodeList.subnodesL, List.mem_cons, List.mem_append, List.append_nil]
          tauto
        · refine tokOkIn_mono (visitList_tokOk cases v3 h3 t ht) ?_
          intro x hx
          simp only [Node.subnodes, NodeKind.subnodesK, NodeOpt.subnodesO, NodeList.subnodesL, List.mem_cons, List.mem_append, List.append_nil]
          tauto
        · refine emitEnd_tokOkIn h4 ?_
          simp only [Node.subnodes]
          exact List.mem_cons_self _ _
    | returnStatement argument =>
        rw [visitNode] at h
        simp only [exceptBind_ok, exceptPure_ok] at h
        obtain ⟨v1, h1, v2, h2, hts⟩ := h
        subst hts
        intro t ht
        simp only [List.mem_cons, List.mem_append, List.mem_singleton, List.mem_nil_iff, or_false, or_assoc] at ht
        rcases ht with rfl | ht
        · exact emit_tokOkIn h1 (by decide) _
        · refine tokOkIn_mono (visitOpt_tokOk argument v2 h2 t ht) ?_
          intro x hx
          simp only [Node.subnodes, NodeKind.subnodesK, NodeOpt.subnodesO, NodeList.subnodesL, List.mem_cons, List.mem_append, List.append_nil]
          tauto
    | throwStatement argument =>
        rw [visitNode] at h
        simp only [exceptBind_ok, exceptPure_ok] at h
        obtain ⟨v1, h1, v2, h2, hts⟩ := h
        subst hts
        intro t ht
        simp only [List.mem_cons, List.mem_append, List.mem_singleton, List.mem_nil_iff, or_false, or_assoc] at ht
        rcases ht with rfl | ht
        · exact emit_tokOkIn h1 (by decide) _
        · refine tokOkIn_mono (visitNode_tokOk argument v2 h2 t ht) ?_
          intro x hx
          simp only [Node.subnodes, NodeKind.subnodesK, NodeOpt.subnodesO, NodeList.subnodesL, List.mem_cons, List.mem_append, List.append_nil]
          tauto
    | tryStatement block handler finalizer =>
        rw [visitNode] at h
        simp only [exceptBind_ok, exceptPure_ok] at h
        obtain ⟨v1, h1, v2, h2, v3, h3, v4, h4, hts⟩ := h
        subst hts
        intro t ht
        simp only [List.mem_cons, List.mem_append, List.mem_singleton, List.mem_nil_iff, or_false, or_assoc] at ht
        rcases ht with rfl | ht | ht | ht
        · exact emit_tokOkIn h1 (by decide) _
        · refine tokOkIn_mono (visitNode_tokOk block v2 h2 t ht) ?_
          intro x hx
          simp only [Node.subnodes, NodeKind.subnodesK, NodeOpt.subnodesO, NodeList.subnodesL, List.mem_cons, List.mem_append, List.append_nil]
          tauto
        · refine tokOkIn_mono (visitOpt_tokOk handler v3 h3 t ht) ?_
          intro x hx
          simp only [Node.subnodes, NodeKind.subnodesK, NodeOpt.subnodesO, NodeList.subnodesL, List.mem_cons, List.mem_append, List.append_nil]
          tauto
        · refine tokOkIn_mono (visitOpt_tokOk finalizer v4 h4 t ht) ?_
          intro x hx
          simp only [Node.subnodes, NodeKind.subnodesK, NodeOpt.subnodesO, NodeList.subnodesL, List.mem_cons, List.mem_append, List.append_nil]
          tauto
    | catchClause param body =>
        rw [visitNode] at h
        simp only [exceptBind_ok, exceptPure_ok] at h
        obtain ⟨v1, h1, v2, h2, v3, h3, v4, h4, hts⟩ := h
        subst hts
        intro t ht
        simp only [List.mem_cons, List.mem_append, List.mem_singleton, List.mem_nil_iff, or_false, or_assoc] at ht
        rcases ht with rfl | ht | ht | rfl
        · exact emit_tokOkIn h1 (by decide) _
        · refine tokOkIn_mono (visitOpt_tokOk param v2 h2 t ht) ?_
          intro x hx
          simp only [Node.subnodes, NodeKind.subnodesK, NodeOpt.subnodesO, NodeList.subnodesL, List.mem_cons, List.mem_append, List.append_nil]
          tauto
        · refine tokOkIn_mono (visitNode_tokOk body v3 h3 t ht) ?_
          intro x hx
          simp only [Node.subnodes, NodeKind.subnodesK, NodeOpt.subnodesO, NodeList.subnodesL, List.mem_cons, List.mem_append, List.append_nil]
          tauto
        · refine emitEnd_tokOkIn h4 ?_
          simp only [Node.subnodes]
          exact List.mem_cons_self _ _
    | doWhileStatement body test =>
        rw [visitNode] at h
        simp only [exceptBind_ok, exceptPure_ok] at h
        obtain ⟨v1, h1, v2, h2, v3, h3, v4, h4, hts⟩ := h
        subst hts
        intro t ht
        simp only [List.mem_cons, List.mem_append, List.mem_singleton, List.mem_nil_iff, or_false, or_assoc] at ht
        rcases ht with rfl | ht | ht | rfl
        · exact emit_tokOkIn h1 (by decide) _
        · refine tokOkIn_mono (visitNode_tokOk body v2 h2 t ht) ?_
          intro x hx
          simp only [Node.subnodes, NodeKind.subnodesK, NodeOpt.subnodesO, NodeList.subnodesL, List.mem_cons, List.mem_append, List.append_nil]
          tauto
        · refine tokOkIn_mono (visitNode_tokOk test v3 h3 t ht) ?_
          intro x hx
          simp only [Node.subnodes, NodeKind.subnodesK, NodeOpt.subnodesO, NodeList.subnodesL, List.mem_cons, List.mem_append, List.append_nil]
          tauto
        · refine emitEnd_tokOkIn h4 ?_
          simp only [Node.subnodes]
          exact List.mem_cons_self _ _
    | arrayExpression elements =>
        rw [visitNode] at h
        simp only [exceptBind_ok, exceptPure_ok] at h
        obtain ⟨v1, h1, v2, h2, v3, h3, hts⟩ := h
        subst hts
        intro t ht
        simp only [List.mem_cons, List.mem_append, List.mem_singleton, List.mem_nil_iff, or_false, or_assoc] at ht
        rcases ht with rfl | ht | rfl
        · exact emit_tokOkIn h1 (by decide) _
        · refine tokOkIn_mono (visitList_tokOk elements v2 h2 t ht) ?_
          intro x hx
          simp only [Node.subnodes, NodeKind.subnodesK, NodeOpt.subnodesO, NodeList.subnodesL, List.mem_cons, List.mem_append, List.append_nil]
          tauto
        · refine emitEnd_tokOkIn h3 ?_
          simp only [Node.subnodes]
          exact List.mem_cons_self _ _
    | objectExpression properties =>
        rw [visitNode] at h
        simp only [exceptBind_ok, exceptPure_ok] at h
        obtain ⟨v1, h1, v2, h2, v3, h3, hts⟩ := h
        subst hts
        intro t ht
        simp only [List.mem_cons, List.mem_append, List.mem_singleton, List.mem_nil_iff, or_false, or_assoc] at ht
        rcases ht with rfl | ht | rfl
        · exact emit_tokOkIn h1 (by decide) _
        · refine tokOkIn_mono (visitList_tokOk properties v2 h2 t ht) ?_
          intro x hx
          simp only [Node.subnodes, NodeKind.subnodesK, NodeOpt.subnodesO, NodeList.subnodesL, List.mem_cons, List.mem_append, List.append_nil]
          tauto
        · refine emitEnd_tokOkIn h3 ?_
          simp only [Node.subnodes]
          exact List.mem_cons_self _ _
    | assignmentExpression _ left right =>
        rw [visitNode] at h
        simp only [exceptBind_ok, exceptPure_ok] at h
        obtain ⟨v1, h1, v2, h2, v3, h3, hts⟩ := h
        subst hts
        intro t ht
        simp only [List.mem_cons, List.mem_append, List.mem_singleton, List.mem_nil_iff, or_false, or_assoc] at ht
        rcases ht with ht | rfl | ht
        · refine tokOkIn_mono (visitNode_tokOk left v1 h1 t ht) ?_
          intro x hx
          simp only [Node.subnodes, NodeKind.subnodesK, NodeOpt.subnodesO, NodeList.subnodesL, List.mem_cons, List.mem_append, List.append_nil]
          tauto
        · exact emit_tokOkIn h2 (by decide) _
        · refine tokOkIn_mono (visitNode_tokOk right v3 h3 t ht) ?_
          intro x hx
          simp only [Node.subnodes, NodeKind.subnodesK, NodeOpt.subnodesO, NodeList.subnodesL, List.mem_cons, List.mem_append, List.append_nil]
          tauto
    | updateExpression _ argument =>
        rw [visitNode] at h
        simp only [exceptBind_ok, exceptPure_ok] at h
        obtain ⟨v1, h1, v2, h2, hts⟩ := h
        subst hts
        intro t ht
        simp only [List.mem_cons, List.mem_append, List.mem_singleton, List.mem_nil_iff, or_false, or_assoc] at ht
        rcases ht with ht | rfl
        · refine tokOkIn_mono (visitNode_tokOk argument v1 h1 t ht) ?_
          intro x hx
          simp only [Node.subnodes, NodeKind.subnodesK, NodeOpt.subnodesO, NodeList.subnodesL, List.mem_cons, List.mem_append, List.append_nil]
          tauto
        · exact emit_tokOkIn h2 (by decide) _
    | conditionalExpression test consequent alternate =>
        rw [visitNode] at h
        simp only [exceptBind_ok, exceptPure_ok] at h
        obtain ⟨v1, h1, v2, h2, v3, h3, v4, h4, hts⟩ := h
        subst hts
        intro t ht
        simp only [List.mem_cons, List.mem_append, List.mem_singleton, List.mem_nil_iff, or_false, or_assoc] at ht
        rcases ht with rfl | ht | ht | ht
        · exact emit_tokOkIn h1 (by decide) _
        · refine tokOkIn_mono (visitNode_tokOk test v2 h2 t ht) ?_
          intro x hx
          simp only [Node.subnodes, NodeKind.subnodesK, NodeOpt.subnodesO, NodeList.subnodesL, List.mem_cons, List.mem_append, List.append_nil]
          tauto
        · refine tokOkIn_mono (visitNode_tokOk consequent v3 h3 t ht) ?_
          intro x hx
          simp only [Node.subnodes, NodeKind.subnodesK, NodeOpt.subnodesO, NodeList.subnodesL, List.mem_cons, List.mem_append, List.append_nil]
          tauto
        · refine tokOkIn_mono (visitNode_tokOk alternate v4 h4 t ht) ?_
          intro x hx
          simp only [Node.subnodes, NodeKind.subnodesK, NodeOpt.subnodesO, NodeList.subnodesL, List.mem_cons, List.mem_append, List.append_nil]
          tauto
    | yieldExpression argument =>
        rw [visitNode] at h
        simp only [exceptBind_ok, exceptPure_ok] at h
        obtain ⟨v1, h1, v2, h2, hts⟩ := h
        subst hts
        intro t ht
        simp only [List.mem_cons, List.mem_append, List.mem_singleton, List.mem_nil_iff, or_false, or_assoc] at ht
        rcases ht with rfl | ht
        · exact emit_tokOkIn h1 (by decide) _
        · refine tokOkIn_mono (visitOpt_tokOk argument v2 h2 t ht) ?_
          intro x hx
          simp only [Node.subnodes, NodeKind.subnodesK, NodeOpt.subnodesO, NodeList.subnodesL, List.mem_cons, List.mem_append, List.append_nil]
          tauto
    | awaitExpression argument =>
        rw [visitNode] at h
        simp only [exceptBind_ok, exceptPure_ok] at h
        obtain ⟨v1, h1, v2, h2, hts⟩ := h
        subst hts
        intro t ht
        simp only [List.mem_cons, List.mem_append, List.mem_singleton, List.mem_nil_iff, or_false, or_assoc] at ht
        rcases ht with rfl | ht
        · exact emit_tokOkIn h1 (by decide) _
        · refine tokOkIn_mono (visitNode_tokOk argument v2 h2 t ht) ?_
          intro x hx
          simp only [Node.subnodes, NodeKind.subnodesK, NodeOpt.subnodesO, NodeList.subnodesL, List.mem_cons, List.mem_append, List.append_nil]
          tauto
    | importDeclaration =>
        rw [visitNode] at h
        simp only [exceptBind_ok, exceptPure_ok] at h
        obtain ⟨v1, h1, hts⟩ := h
        subst hts
        intro t ht
        simp only [List.mem_cons, List.mem_append, List.mem_singleton, List.mem_nil_iff, or_false, or_assoc] at ht
        subst ht
        exact emit_tokOkIn h1 (by decide) _
    | exportNamedDeclaration declaration =>
        rw [visitNode] at h
        simp only [exceptBind_ok, exceptPure_ok] at h
        obtain ⟨v1, h1, v2, h2, hts⟩ := h
        subst hts
        intro t ht
        simp only [List.mem_cons, List.mem_append, List.mem_singleton, List.mem_nil_iff, or_false, or_assoc] at ht
        rcases ht with rfl | ht
        · exact emit_tokOkIn h1 (by decide) _
        · refine tokOkIn_mono (visitOpt_tokOk declaration v2 h2 t ht) ?_
          intro x hx
          simp only [Node.subnodes, NodeKind.subnodesK, NodeOpt.subnodesO, NodeList.subnodesL, List.mem_cons, List.mem_append, List.append_nil]
          tauto
    | exportDefaultDeclaration declaration =>
        rw [visitNode] at h
        simp only [exceptBind_ok, exceptPure_ok] at h
        obtain ⟨v1, h1, v2, h2, hts⟩ := h
        subst hts
        intro t ht
        simp only [List.mem_cons, List.mem_append, List.mem_singleton, List.mem_nil_iff, or_false, or_assoc] at ht
        rcases ht with rfl | ht
        · exact emit_tokOkIn h1 (by decide) _
        · refine tokOkIn_mono (visitNode_tokOk declaration v2 h2 t ht) ?_
          intro x hx
          simp only [Node.subnodes, NodeKind.subnodesK, NodeOpt.subnodesO, NodeList.subnodesL, List.mem_cons, List.mem_append, List.append_nil]
          tauto
    | exportAllDeclaration =>
        rw [visitNode] at h
        simp only [exceptBind_ok, exceptPure_ok] at h
        obtain ⟨v1, h1, hts⟩ := h
        subst hts
        intro t ht
        simp only [List.mem_cons, List.mem_append, List.mem_singleton, List.mem_nil_iff, or_false, or_assoc] at ht
        subst ht
        exact emit_tokOkIn h1 (by decide) _
    | variableDeclarator id init =>
        cases init with
        | none =>
            rw [visitNode] at h
            intro t ht
            refine tokOkIn_mono (visitNode_tokOk id ts h t ht) ?_
            intro x hx
            simp only [Node.subnodes, NodeKind.subnodesK, NodeOpt.subnodesO, NodeList.subnodesL, List.mem_cons, List.mem_append, List.append_nil]
            tauto
        | some init =>
            rw [visitNode] at h
            simp only [exceptBind_ok, exceptPure_ok] at h
            obtain ⟨v1, h1, v2, h2, v3, h3, hts⟩ := h
            subst hts
            intro t ht
            simp only [List.mem_cons, List.mem_append, List.mem_singleton, List.mem_nil_iff, or_false, or_assoc] at ht
            rcases ht with rfl | ht | ht
            · exact emit_tokOkIn h1 (by decide) _
            · refine tokOkIn_mono (visitNode_tokOk id v2 h2 t ht) ?_
              intro x hx
              simp only [Node.subnodes, NodeKind.subnodesK, NodeOpt.subnodesO, NodeList.subnodesL, List.mem_cons, List.mem_append, List.append_nil]
              tauto
            · refine tokOkIn_mono (visitNode_tokOk init v3 h3 t ht) ?_
              intro x hx
              simp only [Node.subnodes, NodeKind.subnodesK, NodeOpt.subnodesO, NodeList.subnodesL, List.mem_cons, List.mem_append, List.append_nil]
              tauto
    | ifStatement test consequent alternate =>
        cases alternate with
        | none =>
            rw [visitNode] at h
            simp only [exceptBind_ok, exceptPure_ok] at h
            obtain ⟨v1, h1, v2, h2, v3, h3, v4, h4, hts⟩ := h
            subst hts
            intro t ht
            simp only [List.mem_cons, List.mem_append, List.mem_singleton, List.mem_nil_iff, or_false, or_assoc] at ht
            rcases ht with rfl | ht | ht | rfl
            · exact emit_tokOkIn h1 (by decide) _
            · refine tokOkIn_mono (visitNode_tokOk test v2 h2 t ht) ?_
              intro x hx
              simp only [Node.subnodes, NodeKind.subnodesK, NodeOpt.subnodesO, NodeList.subnodesL, List.mem_cons, List.mem_append, List.append_nil]
              tauto
            · refine tokOkIn_mono (visitNode_tokOk consequent v3 h3 t ht) ?_
              intro x hx
              simp only [Node.subnodes, NodeKind.subnodesK, NodeOpt.subnodesO, NodeList.subnodesL, List.mem_cons, List.mem_append, List.append_nil]
              tauto
            · refine emitEnd_tokOkIn h4 ?_
              simp only [Node.subnodes]
              exact List.mem_cons_self _ _
        | some alternate =>
            rw [visitNode] at h
            simp only [exceptBind_ok, exceptPure_ok] at h
            obtain ⟨v1, h1, v2, h2, v3, h3, v4, h4, v5, h5, v6, h6, hts⟩ := h
            subst hts
            intro t ht
            simp only [List.mem_cons, List.mem_append, List.mem_singleton, List.mem_nil_iff, or_false, or_assoc] at ht
            rcases ht with rfl | ht | ht | rfl | ht | rfl
            · exact emit_tokOkIn h1 (by decide) _
            · refine tokOkIn_mono (visitNode_tokOk test v2 h2 t ht) ?_
              intro x hx
              simp only [Node.subnodes, NodeKind.subnodesK, NodeOpt.subnodesO, NodeList.subnodesL, List.mem_cons, List.mem_append, List.append_nil]
              tauto
            · refine tokOkIn_mono (visitNode_tokOk consequent v3 h3 t ht) ?_
              intro x hx
              simp only [Node.subnodes, NodeKind.subnodesK, NodeOpt.subnodesO, NodeList.subnodesL, List.mem_cons, List.mem_append, List.append_nil]
              tauto
            · exact emit_tokOkIn h4 (by decide) _
            · refine tokOkIn_mono (visitNode_tokOk alternate v5 h5 t ht) ?_
              intro x hx
              simp only [Node.subnodes, NodeKind.subnodesK, NodeOpt.subnodesO, NodeList.subnodesL, List.mem_cons, List.mem_append, List.append_nil]
              tauto
            · refine emitEnd_tokOkIn h6 ?_
              simp only [Node.subnodes]
              exact List.mem_cons_self _ _
    | switchCase test consequent =>
        cases test with
        | none =>
            rw [visitNode] at h
            simp only [exceptBind_ok, exceptPure_ok] at h
            obtain ⟨v1, h1, v2, h2, hts⟩ := h
            subst hts
            intro t ht
            simp only [List.mem_cons, List.mem_append, List.mem_singleton, List.mem_nil_iff, or_false, or_assoc] at ht
            rcases ht with rfl | ht
            · exact emit_tokOkIn h1 (by decide) _
            · refine tokOkIn_mono (visitList_tokOk consequent v2 h2 t ht) ?_
              intro x hx
              simp only [Node.subnodes, NodeKind.subnodesK, NodeOpt.subnodesO, NodeList.subnodesL, List.mem_cons, List.mem_append, List.append_nil]
              tauto
        | some test =>
            rw [visitNode] at h
            simp only [exceptBind_ok, exceptPure_ok] at h
            obtain ⟨v1, h1, v2, h2, v3, h3, hts⟩ := h
            subst hts
            intro t ht
            simp only [List.mem_cons, List.mem_append, List.mem_singleton, List.mem_nil_iff, or_false, or_assoc] at ht
            rcases ht with rfl | ht | ht
            · exact emit_tokOkIn h1 (by decide) _
            · refine tokOkIn_mono (visitNode_tokOk test v2 h2 t ht) ?_
              intro x hx
              simp only [Node.subnodes, NodeKind.subnodesK, NodeOpt.subnodesO, NodeList.subnodesL, List.mem_cons, List.mem_append, List.append_nil]
              tauto
            · refine tokOkIn_mono (visitList_tokOk consequent v3 h3 t ht) ?_
              intro x hx
              simp only [Node.subnodes, NodeKind.subnodesK, NodeOpt.subnodesO, NodeList.subnodesL, List.mem_cons, List.mem_append, List.append_nil]
              tauto


theorem visitList_tokOk (l : NodeList) (ts : List Token)
    (h : visitList l = Except.ok ts) : ∀ t ∈ ts, TokOkIn l.subnodesL t := by
  cases l with
  | nil =>
      rw [visitList] at h
      cases h
      intro t ht
      cases ht
  | cons head tail =>
      rw [visitList] at h
      simp only [exceptBind_ok, exceptPure_ok] at h
      obtain ⟨a, ha, b, hb, hts⟩ := h
      subst hts
      intro t ht
      simp only [List.mem_append] at ht
      rcases ht with ht | ht
      · refine tokOkIn_mono (visitNode_tokOk head a ha t ht) ?_
        intro x hx
        simp only [NodeList.subnodesL, List.mem_append]
        exact Or.inl hx
      · refine tokOkIn_mono (visitList_tokOk tail b hb t ht) ?_
        intro x hx
        simp only [NodeList.subnodesL, List.mem_append]
        exact Or.inr hx

theorem visitOpt_tokOk (o : NodeOpt) (ts : List Token)
    (h : visitOpt o = Except.ok ts) : ∀ t ∈ ts, TokOkIn o.subnodesO t := by
  cases o with
  | none =>
      rw [visitOpt] at h
      cases h
      intro t ht
      cases ht
  | some node =>
      rw [visitOpt] at h
      intro t ht
      refine tokOkIn_mono (visitNode_tokOk node ts h t ht) ?_
      intro x hx
      simp only [NodeOpt.subnodesO]
      exact hx

end

theorem atPos_of_not_tokLE {l c : Nat} {a b : Token} (hab : ¬ tokLE a b)
    (ha : atPos l c a = true) : atPos l c b = false := by
  unfold tokLE at hab
  unfold atPos at ha ⊢
  simp only [Bool.and_eq_true, beq_iff_eq] at ha
  rw [Bool.eq_false_iff]
  intro hb
  simp only [Bool.and_eq_true, beq_iff_eq] at hb
  omega

theorem filter_orderedInsert (t : Token) (l c : Nat) :
    ∀ ts : List Token, List.filter (atPos l c) (List.orderedInsert tokLE t ts) =
      if atPos l c t then t :: List.filter (atPos l c) ts
      else List.filter (atPos l c) ts
  | [] => by
      simp [List.orderedInsert, List.filter_cons]
  | b :: bs => by
      rw [List.orderedInsert]
      split
      · rw [List.filter_cons]
      · rename_i hnot
        rw [List.filter_cons, List.filter_cons, filter_orderedInsert t l c bs]
        by_cases hat : atPos l c t = true
        · have hb : atPos l c b = false := atPos_of_not_tokLE hnot hat
          simp [hat, hb, List.filter_cons]
        · simp only [Bool.not_eq_true] at hat
          simp [hat, List.filter_cons]

theorem sortTokens_filter (ts : List Token) (l c : Nat) :
    List.filter (atPos l c) (sortTokens ts) = List.filter (atPos l c) ts := by
  induction ts with
  | nil => rfl
  | cons x xs ih =>
      unfold sortTokens at *
      rw [List.insertionSort, filter_orderedInsert, ih, List.filter_cons]

theorem sortTokens_sorted (ts : List Token) : List.Sorted tokLE (sortTokens ts) :=
  List.sorted_insertionSort tokLE ts

theorem sortTokens_perm (ts : List Token) : (sortTokens ts).Perm ts :=
  List.perm_insertionSort tokLE ts

theorem doParse_ok {strict loose : String → Except String Node} {content : String}
    {ts : List Token} :
    doParse strict loose content = Except.ok ts ↔
      ∃ ast raw, parseToAst strict loose content = Except.ok ast ∧
        ASTToTokens ast = Except.ok raw ∧ ts = sortTokens raw := by
  unfold doParse
  simp only [exceptBind_ok, exceptPure_ok]
  constructor
  · rintro ⟨a, ha, b, hb, hts⟩
    exact ⟨a, b, ha, hb, hts⟩
  · rintro ⟨a, b, ha, hb, hts⟩
    exact ⟨a, ha, b, hb, hts⟩

/-- Claim C1, counterexample: for the scenario A input
for (let i = 0; i < 3; i++) with empty block body, the conversion does
emit ASSIGN tokens for the C-style header - one for the initialized
declarator and one for the update expression - refuting the claim that no
ASSIGN is emitted there and that only the for-of/for-in path emits
ASSIGN. -/
theorem C1_counterexample :
    doParse strictA looseFail srcA = Except.ok outA ∧
    outA.countP isAssignTok = 2 :=
  ⟨rfl, by decide⟩

/-- Claim C1, amended: scenario A yields FOR_BEGIN at the for position
with length 3 and FOR_END at the closing brace with length 1, and in
addition two ASSIGN tokens for the header: the declarator with
initializer (at its position, length of the declared name) and the update
expression (at its position, length of the ++ operator). -/
theorem C1_theorem :
    doParse strictA looseFail srcA = Except.ok outA ∧
    outA.head? = Option.some (Token.mk (TokenId.mk "FOR_BEGIN" 2) 1 0 3) ∧
    outA.getLast? = Option.some (Token.mk (TokenId.mk "FOR_END" 3) 1 29 1) ∧
    outA.countP isAssignTok = 2 :=
  ⟨rfl, by decide, by decide, by decide⟩

/-- Claim C2, counterexample: the FOR_END emission of visitForStatement
passes the length argument "".length, that is 0, to emitEnd; emitEnd does
not assert its length argument positive (it has no length parameter and
always emits length 1), so the emission succeeds instead of aborting, and
the whole scenario A conversion succeeds, refuting the claim that every
emission asserts a strictly positive length argument. -/
theorem C2_counterexample :
    ("".length : Int) = 0 ∧
    emitEnd TOKENS.FOR_END forNodeA (Option.some ("".length : Int)) =
      Except.ok (Token.mk (TokenId.mk "FOR_END" 3) 1 29 1) ∧
    ASTToTokens astA = Except.ok outA :=
  ⟨rfl, rfl, rfl⟩

/-- Claim C2, amended: emit succeeds exactly when its length argument is
strictly positive (a violation aborts the conversion); emitEnd ignores
any length argument entirely and emits the constant length 1, so no
emission can silently produce a zero-length token, but the positivity
assertion exists only in emit. -/
theorem C2_theorem :
    (∀ tok n len, (∃ t, emit tok n len = Except.ok t) ↔ 0 < len) ∧
    (∀ tok n a1 a2, emitEnd tok n a1 = emitEnd tok n a2) ∧
    (∀ tok n a t, emitEnd tok n a = Except.ok t → t.length = 1) := by
  refine ⟨fun tok n len => ⟨?_, ?_⟩, fun tok n a1 a2 => rfl, fun tok n a t h => ?_⟩
  · rintro ⟨t, h⟩
    exact (emit_ok.mp h).1
  · intro h
    exact ⟨mkTok tok n len, emit_ok.mpr ⟨h, rfl⟩⟩
  · obtain ⟨hk, rfl⟩ := emitEnd_ok.mp h
    rfl

/-- Claim C2, witness: a concrete successful emission with positive
length, the indifference of emitEnd to its discarded argument, and the
constant end length. -/
theorem C2_witness :
    (∃ t, emit TOKENS.BREAK forNodeA 30 = Except.ok t) ∧
    emitEnd TOKENS.FOR_END forNodeA Option.none =
      emitEnd TOKENS.FOR_END forNodeA (Option.some 0) ∧
    (Token.mk (TokenId.mk "FOR_END" 3) 1 29 1).length = 1 :=
  ⟨(C2_theorem.1 TOKENS.BREAK forNodeA 30).mpr (by decide),
   C2_theorem.2.1 TOKENS.FOR_END forNodeA Option.none (Option.some 0),
   C2_theorem.2.2 TOKENS.FOR_END forNodeA Option.none _ rfl⟩

/-- Claim C3: in any successful conversion, every output token whose kind
name is END-suffixed has length exactly 1 and sits at the closing
position of some node of the parsed tree: its end line, and its end
column shifted left by one and clamped at zero. -/
theorem C3_theorem (strict loose : String → Except String Node) (content : String)
    (ts : List Token) (h : doParse strict loose content = Except.ok ts) :
    ∀ t ∈ ts, strEndsWith t.token.key "END" = true →
      t.length = 1 ∧ ∃ ast m, parseToAst strict loose content = Except.ok ast ∧
        m ∈ ast.subnodes ∧ t.line = m.loc.stop.line ∧
        t.column = Nat.max (m.loc.stop.column - 1) 0 := by
  obtain ⟨ast, raw, hast, hraw, rfl⟩ := doParse_ok.mp h
  intro t ht he
  have ht2 : t ∈ raw := ((sortTokens_perm raw).mem_iff).mp ht
  obtain ⟨hlen, m, hm, hline, hcol⟩ := (visitNode_tokOk ast raw hraw t ht2).2 he
  exact ⟨hlen, ast, m, hast, hm, hline, hcol⟩

/-- Claim C3, witness: the FOR_END token of scenario A has length 1 and
the closing position of a node of the scenario A tree. -/
theorem C3_witness :
    doParse strictA looseFail srcA = Except.ok outA ∧
    ((Token.mk (TokenId.mk "FOR_END" 3) 1 29 1).length = 1 ∧
      ∃ ast m, parseToAst strictA looseFail srcA = Except.ok ast ∧
        m ∈ ast.subnodes ∧
        (Token.mk (TokenId.mk "FOR_END" 3) 1 29 1).line = m.loc.stop.line ∧
        (Token.mk (TokenId.mk "FOR_END" 3) 1 29 1).column =
          Nat.max (m.loc.stop.column - 1) 0) :=
  ⟨rfl, C3_theorem strictA looseFail srcA outA rfl
    (Token.mk (TokenId.mk "FOR_END" 3) 1 29 1) (by decide) rfl⟩

/-- Claim C4: a successful doParse output is sorted non-decreasingly by
(line, column), it is a permutation of the emission-order token list, and
at every fixed position the output preserves the emission order of the
tokens there (stability of the sort). -/
theorem C4_theorem (strict loose : String → Except String Node) (content : String)
    (ts : List Token) (h : doParse strict loose content = Except.ok ts) :
    List.Sorted tokLE ts ∧
    ∃ ast raw, parseToAst strict loose content = Except.ok ast ∧
      ASTToTokens ast = Except.ok raw ∧ ts = sortTokens raw ∧ ts.Perm raw ∧
      ∀ l c, ts.filter (atPos l c) = raw.filter (atPos l c) := by
  obtain ⟨ast, raw, hast, hraw, rfl⟩ := doParse_ok.mp h
  exact ⟨sortTokens_sorted raw, ast, raw, hast, hraw, rfl, sortTokens_perm raw,
    fun l c => sortTokens_filter raw l c⟩

/-- Claim C4, witness: the scenario A output is sorted and stable. -/
theorem C4_witness :
    doParse strictA looseFail srcA = Except.ok outA ∧
    (List.Sorted tokLE outA ∧
      ∃ ast raw, parseToAst strictA looseFail srcA = Except.ok ast ∧
        ASTToTokens ast = Except.ok raw ∧ outA = sortTokens raw ∧ outA.Perm raw ∧
        ∀ l c, outA.filter (atPos l c) = raw.filter (atPos l c)) :=
  ⟨rfl, C4_theorem strictA looseFail srcA outA rfl⟩

/-- Claim C5, counterexample: the TOKENS vocabulary has 43 kinds, not 32,
and no kind has id 1 (nor 0): ids start at 2, refuting that ids start at
1 and that there are 32 kinds. -/
theorem C5_counterexample :
    tokensTable.length = 43 ∧ (tokensTable.length == 32) = false ∧
    ((tokensTable.map Prod.snd).contains 1) = false ∧
    ((tokensTable.map Prod.snd).contains 0) = false :=
  ⟨by decide, by decide, by decide, by decide⟩

set_option maxRecDepth 4096 in
/-- Claim C5, amended: the vocabulary is a fixed, closed enumeration of 43
token kinds with distinct names and distinct ids ranging from 2 to 44
(ids 0 and 1 unused), and the reported AMOUNT is the kind count plus 1,
namely 44; the MAPPING key count equals the kind count. -/
theorem C5_theorem :
    tokensTable.length = 43 ∧
    AMOUNT = tokensTable.length + 1 ∧
    AMOUNT = 44 ∧
    (tokensTable.map Prod.snd).Nodup ∧
    (tokensTable.map Prod.fst).Nodup ∧
    (tokensTable.map Prod.snd).min? = Option.some 2 ∧
    (tokensTable.map Prod.snd).max? = Option.some 44 ∧
    mappingKeyCount = tokensTable.length := by
  refine ⟨by decide, by decide, by decide, by decide, by decide, by decide,
    by decide, by decide⟩

/-- Claim C6: when the strict parse fails, parseToAst returns exactly the
lenient parse of the same content, and when the lenient parse fails too,
doParse fails with that error and produces no token list. -/
theorem C6_theorem (strict loose : String → Except String Node) (content : String)
    (e : String) (h : strict content = Except.error e) :
    parseToAst strict loose content = loose content ∧
    ∀ e2, loose content = Except.error e2 →
      doParse strict loose content = Except.error e2 := by
  have hp : parseToAst strict loose content = loose content := by
    unfold parseToAst
    rw [h]
  refine ⟨hp, fun e2 h2 => ?_⟩
  unfold doParse
  rw [hp, h2]
  rfl

/-- Claim C6, witness: with a failing strict parser the lenient parser is
consulted, and when it fails as well the whole conversion fails with its
error. -/
theorem C6_witness :
    parseToAst strictFail looseFail srcA = looseFail srcA ∧
    doParse strictFail looseFail srcA = Except.error "loose parse failed" :=
  ⟨(C6_theorem strictFail looseFail srcA _ rfl).1,
   (C6_theorem strictFail looseFail srcA _ rfl).2 "loose parse failed" rfl⟩

/-- Claim C7, counterexample: for scenario C the else keyword occupies
columns 10-13 of the source, but the ELSE marker is emitted at column 15,
the start of the alternate block, not at the else keyword position: the
output has no ELSE token at column 10. -/
theorem C7_counterexample :
    doParse strictC looseFail srcC = Except.ok outC ∧
    ((srcC.toList.drop 10).take 4 = "else".toList) ∧
    outC.countP (isElseAt 10) = 0 ∧
    outC.countP (isElseAt 15) = 1 :=
  ⟨rfl, by decide, by decide, by decide⟩

/-- Claim C7, amended: scenario C yields IF_BEGIN with length 2 at the if
position, an ELSE marker with length 1 at the start position of the
alternate block (after the else keyword), and IF_END with length 1 at the
final closing brace. -/
theorem C7_theorem :
    doParse strictC looseFail srcC = Except.ok outC ∧
    altC.loc.start.column = 15 ∧
    ifNodeC.loc.stop.column - 1 = 16 :=
  ⟨rfl, rfl, rfl⟩

/-- Claim C8: every token of a successful doParse output has length at
least 1. -/
theorem C8_theorem (strict loose : String → Except String Node) (content : String)
    (ts : List Token) (h : doParse strict loose content = Except.ok ts) :
    ∀ t ∈ ts, 1 ≤ t.length := by
  obtain ⟨ast, raw, hast, hraw, rfl⟩ := doParse_ok.mp h
  intro t ht
  have ht2 : t ∈ raw := ((sortTokens_perm raw).mem_iff).mp ht
  exact (visitNode_tokOk ast raw hraw t ht2).1

/-- Claim C8, witness: all scenario C tokens have length at least 1. -/
theorem C8_witness :
    doParse strictC looseFail srcC = Except.ok outC ∧
    ∀ t ∈ outC, 1 ≤ t.length :=
  ⟨rfl, C8_theorem strictC looseFail srcC outC rfl⟩

/-- Claim C9: the for-in rule delegates to the for-of rule and produces
exactly its tokens on the same left/right/body fields, without
re-triggering default traversal: FOR_BEGIN (length 3) at the statement,
the left tokens, ASSIGN (length 1) at the left binding, the right tokens,
the body tokens, and FOR_END at the closing position - nothing else. -/
theorem C9_theorem (loc : SrcLoc) (range : Nat × Nat) (left right body : Node)
    (lts rts bts : List Token)
    (hl : visitNode left = Except.ok lts) (hr : visitNode right = Except.ok rts)
    (hb : visitNode body = Except.ok bts) :
    visitNode (Node.mk loc range (NodeKind.forInStatement left right body)) =
      visitNode (Node.mk loc range (NodeKind.forOfStatement left right body)) ∧
    visitNode (Node.mk loc range (NodeKind.forInStatement left right body)) =
      Except.ok
        (mkTok TOKENS.FOR_BEGIN
            (Node.mk loc range (NodeKind.forInStatement left right body)) 3 ::
          (lts ++ (mkTok TOKENS.ASSIGN left 1 ::
            (rts ++ bts ++
              [mkEndTok TOKENS.FOR_END
                (Node.mk loc range (NodeKind.forInStatement left right body))])))) := by
  constructor
  · rw [visitNode, visitNode, hl, hr, hb]
    rfl
  · rw [visitNode, hl, hr, hb]
    rfl

/-- Claim C9, witness: a concrete for-in statement produces the for-of
token sequence. -/
theorem C9_witness :
    visitNode (Node.mk (l1 0 20) (0, 20) (NodeKind.forInStatement idA1 litA0 blockA)) =
      visitNode (Node.mk (l1 0 20) (0, 20) (NodeKind.forOfStatement idA1 litA0 blockA)) ∧
    visitNode (Node.mk (l1 0 20) (0, 20) (NodeKind.forInStatement idA1 litA0 blockA)) =
      Except.ok
        (mkTok TOKENS.FOR_BEGIN
            (Node.mk (l1 0 20) (0, 20) (NodeKind.forInStatement idA1 litA0 blockA)) 3 ::
          ([] ++ (mkTok TOKENS.ASSIGN idA1 1 ::
            ([] ++ [] ++
              [mkEndTok TOKENS.FOR_END
                (Node.mk (l1 0 20) (0, 20)
                  (NodeKind.forInStatement idA1 litA0 blockA))])))) :=
  C9_theorem (l1 0 20) (0, 20) idA1 litA0 blockA [] [] [] rfl rfl rfl

/-- Claim C10: every function-like construct - function declaration,
function expression, arrow function expression - emits FUNCTION_BEGIN at
its start position with length 8, the length of the keyword function, and
FUNCTION_END with length 1 at its closing position, including arrow
functions whose source text contains no function keyword. -/
theorem C10_theorem (loc : SrcLoc) (range : Nat × Nat) (id : NodeOpt)
    (params : NodeList) (body : Node) (its pts bts : List Token)
    (hi : visitOpt id = Except.ok its) (hp : visitList params = Except.ok pts)
    (hb : visitNode body = Except.ok bts) :
    ("function".length : Int) = 8 ∧
    visitNode (Node.mk loc range (NodeKind.functionDeclaration id params body)) =
      Except.ok
        (mkTok TOKENS.FUNCTION_BEGIN
            (Node.mk loc range (NodeKind.functionDeclaration id params body)) 8 ::
          (its ++ pts ++ bts ++
            [mkEndTok TOKENS.FUNCTION_END
              (Node.mk loc range (NodeKind.functionDeclaration id params body))])) ∧
    visitNode (Node.mk loc range (NodeKind.functionExpression id params body)) =
      Except.ok
        (mkTok TOKENS.FUNCTION_BEGIN
            (Node.mk loc range (NodeKind.functionExpression id params body)) 8 ::
          (its ++ pts ++ bts ++
            [mkEndTok TOKENS.FUNCTION_END
              (Node.mk loc range (NodeKind.functionExpression id params body))])) ∧
    visitNode (Node.mk loc range (NodeKind.arrowFunctionExpression params body)) =
      Except.ok
        (mkTok TOKENS.FUNCTION_BEGIN
            (Node.mk loc range (NodeKind.arrowFunctionExpression params body)) 8 ::
          (pts ++ bts ++
            [mkEndTok TOKENS.FUNCTION_END
              (Node.mk loc range (NodeKind.arrowFunctionExpression params body))])) := by
  refine ⟨rfl, ?_, ?_, ?_⟩
  · rw [visitNode, hi, hp, hb]
    rfl
  · rw [visitNode, hi, hp, hb]
    rfl
  · rw [visitNode, hp, hb]
    rfl

/-- Claim C10, witness: the arrow function x => x, a six-character source
with no function keyword, still yields FUNCTION_BEGIN with length 8 at
its start and FUNCTION_END with length 1 at its close. -/
theorem C10_witness :
    srcW.length = 6 ∧
    visitNode arrowW =
      Except.ok
        (mkTok TOKENS.FUNCTION_BEGIN arrowW 8 ::
          ([] ++ [] ++ [mkEndTok TOKENS.FUNCTION_END arrowW])) :=
  ⟨rfl, (C10_theorem (l1 0 6) (0, 6) NodeOpt.none (NodeList.cons idW1 NodeList.nil)
    idW2 [] [] [] rfl rfl rfl).2.2.2⟩
